import Mathlib

/-!
Verification development for the window-manager IPC client of the cinnabar
status-bar application (src/cinnabar/sway.py).

The embedding models:
* the wire-format frame codec (`send_sway_msg` / `recv_sway_msg`), over byte
  lists, with native byte order rendered as little-endian (both ends of the
  connection use `sys.byteorder`, so the round-trip behaviour is independent
  of which fixed order the model picks);
* the JSON fragment produced and consumed by the Python `json` module with
  its default options (`ensure_ascii=True`, separators `", "` / `": "`):
  null, booleans, arbitrary-precision integers, strings of Unicode code
  points, arrays and objects.  Floating-point numbers are outside the
  modelled fragment;
* the command-dispatch worker, the event worker and its read loop;
* the `SwayClient` facade state (including which instance attributes have
  actually been assigned, since two of them are class-level annotations
  only), and the socket-path locator.

Strings are modelled as lists of Unicode code points (`List Nat`), byte
strings as lists of byte values (`List Nat`).
-/

namespace Cinnabar

/-! ## Byte-level helpers -/

/-- Little-endian rendering of `int.to_bytes(width, sys.byteorder)`.  The
Python call raises `OverflowError` when the value does not fit; callers of
this function guard with `n < 256 ^ width`. -/
def toBytesLE : Nat → Nat → List Nat
  | 0, _ => []
  | w + 1, n => n % 256 :: toBytesLE w (n / 256)

/-- Little-endian rendering of `int.from_bytes(bs, sys.byteorder)`. -/
def fromBytesLE (bs : List Nat) : Nat :=
  bs.foldr (fun b acc => b + 256 * acc) 0

/-- Validity of a Unicode scalar value: code points Python can UTF-8-encode
(surrogates are rejected by `str.encode`). -/
def isScalarCP (c : Nat) : Bool :=
  decide (c < 0xD800) || (decide (0xE000 ≤ c) && decide (c < 0x110000))

/-- UTF-8 encoding of one code point (`str.encode` on one character). -/
def utf8EncodeChar (c : Nat) : List Nat :=
  if c < 0x80 then [c]
  else if c < 0x800 then [0xC0 + c / 64, 0x80 + c % 64]
  else if c < 0x10000 then
    [0xE0 + c / 4096, 0x80 + c / 64 % 64, 0x80 + c % 64]
  else
    [0xF0 + c / 262144, 0x80 + c / 4096 % 64, 0x80 + c / 64 % 64, 0x80 + c % 64]

/-- UTF-8 encoding of a string of code points (`str.encode()`). -/
def utf8Encode (s : List Nat) : List Nat := s.flatMap utf8EncodeChar

mutual

/-- Strict UTF-8 decoding of a byte string to code points, as performed by
`json.loads` when handed `bytes` (CPython rejects overlong forms, surrogates
and out-of-range sequences). -/
def utf8Decode : List Nat → Option (List Nat)
  | [] => some []
  | b :: bs =>
    if b < 0x80 then (utf8Decode bs).map (b :: ·)
    else if b < 0xC2 then none
    else if b < 0xE0 then utf8Decode2 b bs
    else if b < 0xF0 then utf8Decode3 b bs
    else if b < 0xF5 then utf8Decode4 b bs
    else none

/-- Continuation of `utf8Decode` for a two-byte sequence head `b`. -/
def utf8Decode2 (b : Nat) : List Nat → Option (List Nat)
  | b2 :: bs2 =>
    if 0x80 ≤ b2 ∧ b2 < 0xC0 then
      (utf8Decode bs2).map (((b - 0xC0) * 64 + (b2 - 0x80)) :: ·)
    else none
  | _ => none

/-- Continuation of `utf8Decode` for a three-byte sequence head `b`. -/
def utf8Decode3 (b : Nat) : List Nat → Option (List Nat)
  | b2 :: b3 :: bs3 =>
    if (0x80 ≤ b2 ∧ b2 < 0xC0) ∧ (0x80 ≤ b3 ∧ b3 < 0xC0) ∧
        (b = 0xE0 → 0xA0 ≤ b2) ∧ (b = 0xED → b2 < 0xA0) then
      (utf8Decode bs3).map
        (((b - 0xE0) * 4096 + (b2 - 0x80) * 64 + (b3 - 0x80)) :: ·)
    else none
  | _ => none

/-- Continuation of `utf8Decode` for a four-byte sequence head `b`. -/
def utf8Decode4 (b : Nat) : List Nat → Option (List Nat)
  | b2 :: b3 :: b4 :: bs4 =>
    if (0x80 ≤ b2 ∧ b2 < 0xC0) ∧ (0x80 ≤ b3 ∧ b3 < 0xC0) ∧
        (0x80 ≤ b4 ∧ b4 < 0xC0) ∧
        (b = 0xF0 → 0x90 ≤ b2) ∧ (b = 0xF4 → b2 < 0x90) then
      (utf8Decode bs4).map
        (((b - 0xF0) * 262144 + (b2 - 0x80) * 4096 +
          (b3 - 0x80) * 64 + (b4 - 0x80)) :: ·)
    else none
  | _ => none

end

/-! ## The Sway message and event enumerations (`SwayMessage`, `SwayEvent`) -/

/-- The types of Sway messages that can be dispatched (class `SwayMessage`). -/
inductive SwayMessage where
  | RUN_COMMAND
  | GET_WORKSPACES
  | SUBSCRIBE
  | GET_OUTPUTS
  | GET_TREE
  | GET_MARKS
  | GET_BAR_CONFIG
  | GET_VERSION
  | GET_BINDING_MODES
  | GET_CONFIG
  | SEND_TICK
  | SYNC
  | GET_BINDING_STATE
  | GET_INPUTS
  | GET_SEATS
deriving DecidableEq, Repr

/-- Numeric code of each `SwayMessage` member (its `value`). -/
def SwayMessage.value : SwayMessage → Nat
  | .RUN_COMMAND => 0
  | .GET_WORKSPACES => 1
  | .SUBSCRIBE => 2
  | .GET_OUTPUTS => 3
  | .GET_TREE => 4
  | .GET_MARKS => 5
  | .GET_BAR_CONFIG => 6
  | .GET_VERSION => 7
  | .GET_BINDING_MODES => 8
  | .GET_CONFIG => 9
  | .SEND_TICK => 10
  | .SYNC => 11
  | .GET_BINDING_STATE => 12
  | .GET_INPUTS => 100
  | .GET_SEATS => 101

/-- The members of `SwayMessage` in declaration order (iteration order of the
Python enum). -/
def swayMessageList : List SwayMessage :=
  [.RUN_COMMAND, .GET_WORKSPACES, .SUBSCRIBE, .GET_OUTPUTS, .GET_TREE,
   .GET_MARKS, .GET_BAR_CONFIG, .GET_VERSION, .GET_BINDING_MODES,
   .GET_CONFIG, .SEND_TICK, .SYNC, .GET_BINDING_STATE, .GET_INPUTS,
   .GET_SEATS]

/-- The types of Sway events that can be subscribed to (class `SwayEvent`). -/
inductive SwayEvent where
  | WORKSPACE
  | MODE
  | WINDOW
  | BARCONFIG_UPDATE
  | BINDING
  | SHUTDOWN
  | TICK
  | BAR_STATE_UPDATE
  | INPUT
deriving DecidableEq, Repr

/-- Numeric code of each `SwayEvent` member (its `value`). -/
def SwayEvent.value : SwayEvent → Nat
  | .WORKSPACE => 0x80000000
  | .MODE => 0x80000002
  | .WINDOW => 0x80000003
  | .BARCONFIG_UPDATE => 0x80000004
  | .BINDING => 0x80000005
  | .SHUTDOWN => 0x80000006
  | .TICK => 0x80000007
  | .BAR_STATE_UPDATE => 0x80000014
  | .INPUT => 0x80000015

/-- The members of `SwayEvent` in declaration order. -/
def swayEventList : List SwayEvent :=
  [.WORKSPACE, .MODE, .WINDOW, .BARCONFIG_UPDATE, .BINDING, .SHUTDOWN,
   .TICK, .BAR_STATE_UPDATE, .INPUT]

/-- Lowercase string form of a `SwayEvent` (its `__str__`, i.e.
`name.lower()`), as ASCII code points. -/
def SwayEvent.strName : SwayEvent → List Nat
  | .WORKSPACE => [119, 111, 114, 107, 115, 112, 97, 99, 101]
  | .MODE => [109, 111, 100, 101]
  | .WINDOW => [119, 105, 110, 100, 111, 119]
  | .BARCONFIG_UPDATE =>
      [98, 97, 114, 99, 111, 110, 102, 105, 103, 95, 117, 112, 100, 97,
       116, 101]
  | .BINDING => [98, 105, 110, 100, 105, 110, 103]
  | .SHUTDOWN => [115, 104, 117, 116, 100, 111, 119, 110]
  | .TICK => [116, 105, 99, 107]
  | .BAR_STATE_UPDATE =>
      [98, 97, 114, 95, 115, 116, 97, 116, 101, 95, 117, 112, 100, 97,
       116, 101]
  | .INPUT => [105, 110, 112, 117, 116]

/-- Classification of a received type code against the `SwayMessage` space,
modelling `any(i.value == t for i in SwayMessage)` followed by
`SwayMessage(t)`. -/
def messageFromCode (c : Nat) : Option SwayMessage :=
  swayMessageList.find? (fun m => m.value == c)

/-- Classification of a received type code against the `SwayEvent` space. -/
def eventFromCode (c : Nat) : Option SwayEvent :=
  swayEventList.find? (fun e => e.value == c)

/-! ## The JSON fragment handled by `json.dumps` / `json.loads`

Payloads flowing through the client are Python values serialized with
`json.dumps` (default options) and parsed with `json.loads`.  `JsonValue`
is the fragment of such values without floats; object members keep
insertion order, as Python dicts do. -/

/-- A JSON value: null, booleans, integers, strings (lists of Unicode code
points), arrays, and objects (insertion-ordered key/value lists). -/
inductive JsonValue where
  | null
  | bool (b : Bool)
  | int (n : Int)
  | str (s : List Nat)
  | arr (elems : List JsonValue)
  | obj (members : List (List Nat × JsonValue))
deriving Repr

/-- Hexadecimal digit character (lowercase), as used by `'\u%04x' % c`. -/
def hexDigitChar (d : Nat) : Nat := if d < 10 then 48 + d else 87 + d

/-- Four-digit lowercase hexadecimal rendering of `n < 0x10000`. -/
def hex4 (n : Nat) : List Nat :=
  [hexDigitChar (n / 4096 % 16), hexDigitChar (n / 256 % 16),
   hexDigitChar (n / 16 % 16), hexDigitChar (n % 16)]

/-- JSON escape of one character under `ensure_ascii=True`, following
`json.encoder.py_encode_basestring_ascii`: printable ASCII other than
quote and backslash is kept, the short escapes are used for the classic
control characters, everything else becomes `\uXXXX` (a surrogate pair
for code points above `0xFFFF`). -/
def escapeChar (c : Nat) : List Nat :=
  if c = 34 then [92, 34]
  else if c = 92 then [92, 92]
  else if c = 8 then [92, 98]
  else if c = 12 then [92, 102]
  else if c = 10 then [92, 110]
  else if c = 13 then [92, 114]
  else if c = 9 then [92, 116]
  else if c < 32 then 92 :: 117 :: hex4 c
  else if c < 127 then [c]
  else if c < 65536 then 92 :: 117 :: hex4 c
  else
    92 :: 117 :: hex4 (55296 + (c - 65536) / 1024) ++
      (92 :: 117 :: hex4 (56320 + (c - 65536) % 1024))

/-- JSON string literal for a list of code points, quotes included. -/
def encodeString (s : List Nat) : List Nat :=
  34 :: s.flatMap escapeChar ++ [34]

/-- Decimal digits of a natural number, as ASCII code points. -/
def natDigits (n : Nat) : List Nat :=
  if h : n < 10 then [48 + n]
  else natDigits (n / 10) ++ [48 + n % 10]
decreasing_by
  exact Nat.div_lt_self (by omega) (by omega)

/-- Decimal rendering of a Python integer (`str(n)`). -/
def intRepr (n : Int) : List Nat :=
  if n < 0 then 45 :: natDigits n.natAbs else natDigits n.natAbs

mutual

/-- Serialization by `json.dumps` with its default options: `ensure_ascii`
on, item separator `", "`, key separator `": "`.  Output is a list of
ASCII code points. -/
def dumps (v : JsonValue) : List Nat :=
  match v with
  | .null => [110, 117, 108, 108]
  | .bool true => [116, 114, 117, 101]
  | .bool false => [102, 97, 108, 115, 101]
  | .int n => intRepr n
  | .str s => encodeString s
  | .arr [] => [91, 93]
  | .arr (x :: xs) => 91 :: dumpsList x xs ++ [93]
  | .obj [] => [123, 125]
  | .obj (m :: ms) => 123 :: dumpsMembers m ms ++ [125]
termination_by sizeOf v
decreasing_by all_goals (simp; try omega)

/-- Comma-separated serialization of a non-empty list of array elements. -/
def dumpsList (x : JsonValue) (xs : List JsonValue) : List Nat :=
  match xs with
  | [] => dumps x
  | y :: ys => dumps x ++ [44, 32] ++ dumpsList y ys
termination_by sizeOf x + sizeOf xs
decreasing_by all_goals (simp; try omega)

/-- Comma-separated serialization of a non-empty list of object members. -/
def dumpsMembers (m : List Nat × JsonValue)
    (ms : List (List Nat × JsonValue)) : List Nat :=
  match ms with
  | [] => encodeString m.1 ++ [58, 32] ++ dumps m.2
  | m2 :: ms2 =>
      encodeString m.1 ++ [58, 32] ++ dumps m.2 ++ [44, 32] ++
        dumpsMembers m2 ms2
termination_by sizeOf m + sizeOf ms
decreasing_by all_goals (cases m; simp; try omega)

end

/-- Distinctness of the keys of an object member list (guaranteed for any
member list obtained from a Python dict). -/
def keysDistinct : List (List Nat × JsonValue) → Bool
  | [] => true
  | m :: ms => ms.all (fun m2 => ¬(m2.1 = m.1)) && keysDistinct ms

mutual

/-- Well-formedness of a `JsonValue` as the image of a Python value: all
string code points are Unicode scalar values, and object keys are
pairwise distinct. -/
def wfJ (v : JsonValue) : Bool :=
  match v with
  | .null => true
  | .bool _ => true
  | .int _ => true
  | .str s => s.all isScalarCP
  | .arr xs => wfL xs
  | .obj ms => keysDistinct ms && wfM ms
termination_by sizeOf v
decreasing_by all_goals (simp; try omega)

/-- Well-formedness of a list of array elements. -/
def wfL (xs : List JsonValue) : Bool :=
  match xs with
  | [] => true
  | x :: t => wfJ x && wfL t
termination_by sizeOf xs
decreasing_by all_goals (simp; try omega)

/-- Well-formedness of a list of object members. -/
def wfM (ms : List (List Nat × JsonValue)) : Bool :=
  match ms with
  | [] => true
  | (k, v2) :: t => k.all isScalarCP && wfJ v2 && wfM t
termination_by sizeOf ms
decreasing_by all_goals (first | (cases m; simp; try omega) | (simp; try omega))

end

mutual

/-- Structural size of a `JsonValue`, used as the parser fuel bound. -/
def sizeJ (v : JsonValue) : Nat :=
  match v with
  | .null => 0
  | .bool _ => 0
  | .int _ => 0
  | .str _ => 0
  | .arr xs => sizeL xs + 1
  | .obj ms => sizeM ms + 1
termination_by sizeOf v
decreasing_by all_goals (simp; try omega)

/-- Structural size of a list of array elements. -/
def sizeL (xs : List JsonValue) : Nat :=
  match xs with
  | [] => 0
  | x :: t => sizeJ x + sizeL t + 1
termination_by sizeOf xs
decreasing_by all_goals (simp; try omega)

/-- Structural size of a list of object members. -/
def sizeM (ms : List (List Nat × JsonValue)) : Nat :=
  match ms with
  | [] => 0
  | (_, v2) :: t => sizeJ v2 + sizeM t + 1
termination_by sizeOf ms
decreasing_by all_goals (first | (cases m; simp; try omega) | (simp; try omega))

end

/-! ## The JSON parser (`json.loads` over the modelled fragment) -/

/-- JSON insignificant whitespace (`[ \t\n\r]`, the `WHITESPACE` regex of
`json.decoder`). -/
def isJsonWs (c : Nat) : Bool :=
  decide (c = 32) || decide (c = 9) || decide (c = 10) || decide (c = 13)

/-- Skipping insignificant whitespace. -/
def skipWs (input : List Nat) : List Nat := input.dropWhile isJsonWs

/-- Value of one hexadecimal digit character (`int(c, 16)`), accepting both
cases. -/
def parseHexDigit (c : Nat) : Option Nat :=
  if 48 ≤ c ∧ c ≤ 57 then some (c - 48)
  else if 97 ≤ c ∧ c ≤ 102 then some (c - 87)
  else if 65 ≤ c ∧ c ≤ 70 then some (c - 55)
  else none

/-- Parsing the body of a JSON string literal after the opening quote, as
`json.scanner.py_scanstring` in strict mode: literal characters up to the
closing quote (control characters rejected), short escapes, `\uXXXX`
escapes, and combination of a high/low surrogate escape pair into a single
code point.  Returns the decoded code points and the rest of the input
after the closing quote. -/
def parseStringGo (fuel : Nat) (input : List Nat) :
    Option (List Nat × List Nat) :=
  match fuel with
  | 0 => none
  | fu + 1 =>
  match input with
  | [] => none
  | c :: rest =>
    if c = 34 then some ([], rest)
    else if c = 92 then
      match rest with
      | [] => none
      | e :: r =>
        if e = 34 then (parseStringGo fu r).map (fun p => (34 :: p.1, p.2))
        else if e = 92 then (parseStringGo fu r).map (fun p => (92 :: p.1, p.2))
        else if e = 47 then (parseStringGo fu r).map (fun p => (47 :: p.1, p.2))
        else if e = 98 then (parseStringGo fu r).map (fun p => (8 :: p.1, p.2))
        else if e = 102 then (parseStringGo fu r).map (fun p => (12 :: p.1, p.2))
        else if e = 110 then (parseStringGo fu r).map (fun p => (10 :: p.1, p.2))
        else if e = 114 then (parseStringGo fu r).map (fun p => (13 :: p.1, p.2))
        else if e = 116 then (parseStringGo fu r).map (fun p => (9 :: p.1, p.2))
        else if e = 117 then
          match r with
          | h1 :: h2 :: h3 :: h4 :: r2 =>
            match parseHexDigit h1, parseHexDigit h2, parseHexDigit h3,
                parseHexDigit h4 with
            | some a, some b, some c1, some d =>
              let u := ((a * 16 + b) * 16 + c1) * 16 + d
              if 55296 ≤ u ∧ u ≤ 56319 then
                match r2 with
                | e2 :: f2 :: r3 =>
                  if e2 = 92 ∧ f2 = 117 then
                    match r3 with
                    | g1 :: g2 :: g3 :: g4 :: r4 =>
                      match parseHexDigit g1, parseHexDigit g2,
                          parseHexDigit g3, parseHexDigit g4 with
                      | some a2, some b2, some c2, some d2 =>
                        let u2 := ((a2 * 16 + b2) * 16 + c2) * 16 + d2
                        if 56320 ≤ u2 ∧ u2 ≤ 57343 then
                          (parseStringGo fu r4).map
                            (fun p =>
                              ((65536 + (u - 55296) * 1024 + (u2 - 56320))
                                :: p.1, p.2))
                        else
                          (parseStringGo fu r2).map
                            (fun p => (u :: p.1, p.2))
                      | _, _, _, _ => none
                    | _ => none
                  else (parseStringGo fu r2).map (fun p => (u :: p.1, p.2))
                | _ => (parseStringGo fu r2).map (fun p => (u :: p.1, p.2))
              else (parseStringGo fu r2).map (fun p => (u :: p.1, p.2))
            | _, _, _, _ => none
          | _ => none
        else none
    else if c < 32 then none
    else (parseStringGo fu rest).map (fun p => (c :: p.1, p.2))

/-- Parsing the body of a JSON string literal: the fuel of `parseStringGo`
is instantiated with the input length, which every step strictly
under-consumes, so the worker never runs out before the input does. -/
def parseStringBody (input : List Nat) : Option (List Nat × List Nat) :=
  parseStringGo input.length input

/-- The longest prefix of decimal digit characters and the remaining
input. -/
def takeDigits : List Nat → List Nat × List Nat
  | [] => ([], [])
  | c :: rest =>
    if 48 ≤ c ∧ c ≤ 57 then
      let p := takeDigits rest
      (c :: p.1, p.2)
    else ([], c :: rest)

/-- Value of a digit string accumulated left to right on top of `acc`. -/
def digitsVal (acc : Nat) (ds : List Nat) : Nat :=
  ds.foldl (fun a d => a * 10 + (d - 48)) acc

/-- Parsing an unsigned JSON integer following the `NUMBER_RE` integer
part `(0|[1-9]\d*)`: a leading zero is a complete number on its own. -/
def parseUnsigned : List Nat → Option (Nat × List Nat)
  | [] => none
  | c :: rest =>
    if c = 48 then some (0, rest)
    else if 49 ≤ c ∧ c ≤ 57 then
      let p := takeDigits rest
      some (digitsVal (c - 48) p.1, p.2)
    else none

/-- Parsing a JSON integer (optional minus sign, then `0|[1-9]\d*`).
Fraction and exponent parts (floats) are outside the modelled fragment. -/
def parseNumber (input : List Nat) : Option (Int × List Nat) :=
  match input with
  | [] => none
  | c :: rest =>
    if c = 45 then (parseUnsigned rest).map (fun p => (-(p.1 : Int), p.2))
    else (parseUnsigned input).map (fun p => ((p.1 : Int), p.2))

/-- Insertion into a Python dict rendered as an insertion-ordered
association list: an existing key is updated in place, a new key is
appended. -/
def dictSet (acc : List (List Nat × JsonValue)) (k : List Nat)
    (v : JsonValue) : List (List Nat × JsonValue) :=
  if acc.any (fun p => p.1 = k) then
    acc.map (fun p => if p.1 = k then (k, v) else p)
  else acc ++ [(k, v)]

/-- The Python dict built from a list of key/value pairs
(`dict(pairs)`). -/
def pyDict (ps : List (List Nat × JsonValue)) : List (List Nat × JsonValue) :=
  ps.foldl (fun acc p => dictSet acc p.1 p.2) []

/-- Matching a keyword literal (`s[idx:idx+4] == 'null'` and similar in
`_scan_once`), yielding the given constant on success. -/
def parseKeyword (input : List Nat) (kw : List Nat) (v : JsonValue) :
    Option (JsonValue × List Nat) :=
  match kw with
  | [] => some (v, input)
  | k :: kt =>
    match input with
    | [] => none
    | c :: ct => if c = k then parseKeyword ct kt v else none

mutual

/-- Scanning one JSON value (`_scan_once` of `json.scanner`), fuelled for
termination (each nesting level consumes fuel; `loads` supplies one more
unit of fuel than the input length, which the grammar cannot exhaust).
The input is expected to start at a non-whitespace character; containers
skip whitespace around their punctuation exactly where the Python decoder
does. -/
def parseValue : Nat → List Nat → Option (JsonValue × List Nat)
  | 0, _ => none
  | f + 1, input =>
    match input with
    | [] => none
    | c :: rest =>
      if c = 34 then
        (parseStringBody rest).map (fun p => (.str p.1, p.2))
      else if c = 91 then
        match skipWs rest with
        | [] => none
        | c2 :: r2 =>
          if c2 = 93 then some (.arr [], r2)
          else (parseElems f (c2 :: r2)).map (fun p => (.arr p.1, p.2))
      else if c = 123 then
        match skipWs rest with
        | [] => none
        | c2 :: r2 =>
          if c2 = 125 then some (.obj [], r2)
          else
            (parseMembers f (c2 :: r2)).map
              (fun p => (.obj (pyDict p.1), p.2))
      else if c = 110 then parseKeyword rest [117, 108, 108] .null
      else if c = 116 then parseKeyword rest [114, 117, 101] (.bool true)
      else if c = 102 then
        parseKeyword rest [97, 108, 115, 101] (.bool false)
      else (parseNumber (c :: rest)).map (fun p => (.int p.1, p.2))

/-- Scanning the comma-separated elements of a non-empty JSON array up to
and including the closing bracket (the loop of `JSONArray`). -/
def parseElems : Nat → List Nat → Option (List JsonValue × List Nat)
  | 0, _ => none
  | f + 1, input =>
    (parseValue f input).bind (fun p =>
      match skipWs p.2 with
      | [] => none
      | c :: r2 =>
        if c = 44 then
          (parseElems f (skipWs r2)).map (fun q => (p.1 :: q.1, q.2))
        else if c = 93 then some ([p.1], r2)
        else none)

/-- Scanning the comma-separated members of a non-empty JSON object up to
and including the closing brace (the loop of `JSONObject`); keys are
string literals followed by a colon. -/
def parseMembers : Nat → List Nat → Option (List (List Nat × JsonValue) × List Nat)
  | 0, _ => none
  | f + 1, input =>
    match input with
    | [] => none
    | c0 :: rest =>
      if c0 = 34 then
        (parseStringBody rest).bind (fun kp =>
          match skipWs kp.2 with
          | [] => none
          | c1 :: r2 =>
            if c1 = 58 then
              (parseValue f (skipWs r2)).bind (fun vp =>
                match skipWs vp.2 with
                | [] => none
                | c2 :: r4 =>
                  if c2 = 44 then
                    (parseMembers f (skipWs r4)).map
                      (fun q => ((kp.1, vp.1) :: q.1, q.2))
                  else if c2 = 125 then some ([(kp.1, vp.1)], r4)
                  else none)
            else none)
      else none

end

/-- Parsing by `json.loads` over the modelled fragment: UTF-8 decoding of
the byte payload, leading/trailing whitespace, exactly one value, and end
of input. -/
def loads (bs : List Nat) : Option JsonValue :=
  match utf8Decode bs with
  | none => none
  | some cps =>
    let t := skipWs cps
    match parseValue (t.length + 1) t with
    | none => none
    | some (v, r) => if skipWs r = [] then some v else none

/-! ## The frame codec (`send_sway_msg` / `recv_sway_msg`) -/

/-- The protocol magic marker `b"i3-ipc"`. -/
def MAGIC_STR : List Nat := [105, 51, 45, 105, 112, 99]

def MAGIC_STR_LEN : Nat := MAGIC_STR.length
def PAYLOAD_LENGTH_LEN : Nat := 4
def PAYLOAD_TYPE_LEN : Nat := 4
def PAYLOAD_LENGTH_BEGIN : Nat := MAGIC_STR_LEN
def PAYLOAD_LENGTH_END : Nat := PAYLOAD_LENGTH_BEGIN + PAYLOAD_LENGTH_LEN
def PAYLOAD_TYPE_BEGIN : Nat := PAYLOAD_LENGTH_END
def PAYLOAD_TYPE_END : Nat := PAYLOAD_TYPE_BEGIN + PAYLOAD_TYPE_LEN
def HEADER_LEN : Nat := MAGIC_STR_LEN + PAYLOAD_LENGTH_LEN + PAYLOAD_TYPE_LEN

/-- The byte string assembled by `send_sway_msg`:
`MAGIC_STR + len(payload).to_bytes(4) + type.to_bytes(4) + payload.encode()`.
Note that the length field carries the *character* count `len(payload)`
while the transmitted payload is its UTF-8 encoding. -/
def frameBytes (msgValue : Nat) (payload : List Nat) : List Nat :=
  MAGIC_STR ++ toBytesLE 4 payload.length ++ toBytesLE 4 msgValue ++
    utf8Encode payload

/-- The `send_sway_msg` function: encodes the message and payload and
writes the frame to the socket.  `none` models the `OverflowError` of
`int.to_bytes` on an oversized length and the `UnicodeEncodeError` of
`str.encode` on surrogate code points, either of which propagates instead
of any bytes being sent. -/
def sendSwayMsg (msgValue : Nat) (payload : List Nat) : Option (List Nat) :=
  if payload.length < 2 ^ 32 ∧ msgValue < 2 ^ 32 ∧ payload.all isScalarCP
  then some (frameBytes msgValue payload)
  else none

/-- The classification of a received frame: a response to a command or an
event notification. -/
inductive SwayKind where
  | msg (m : SwayMessage)
  | ev (e : SwayEvent)
deriving DecidableEq, Repr

/-- Failure modes of `recv_sway_msg`: the stream ended before the declared
bytes arrived (the Python read loop would block forever on a closed
socket), the type code matched neither enumeration (the
`RuntimeError("Unexpected payload type received")` raise — the spec's
`ProtocolError`), or the payload was not valid JSON
(`json.JSONDecodeError`). -/
inductive RecvErr where
  | starved
  | unexpectedPayloadType (code : Nat)
  | jsonError
deriving DecidableEq, Repr

/-- Classification of the received payload type code, in the order the
source checks: the `SwayMessage` space first, then `SwayEvent`. -/
def classifyCode (c : Nat) : Option SwayKind :=
  match messageFromCode c with
  | some m => some (.msg m)
  | none => (eventFromCode c).map .ev

/-- The `recv_sway_msg` function over an explicit byte stream: reads the
fixed-size header, extracts the declared payload length and type code,
reads exactly that many payload bytes, classifies the code (raising for
an unknown one only after the payload has been consumed), and parses the
payload as JSON.  Returns the outcome together with the unread remainder
of the stream. -/
def recvSwayMsg (stream : List Nat) :
    Except RecvErr (SwayKind × JsonValue) × List Nat :=
  if stream.length < HEADER_LEN then (.error .starved, stream)
  else
    let header := stream.take HEADER_LEN
    let afterHeader := stream.drop HEADER_LEN
    let recvPayloadLen :=
      fromBytesLE ((header.drop PAYLOAD_LENGTH_BEGIN).take PAYLOAD_LENGTH_LEN)
    let recvPayloadType :=
      fromBytesLE ((header.drop PAYLOAD_TYPE_BEGIN).take PAYLOAD_TYPE_LEN)
    if afterHeader.length < recvPayloadLen then (.error .starved, afterHeader)
    else
      let payload := afterHeader.take recvPayloadLen
      let rest := afterHeader.drop recvPayloadLen
      match classifyCode recvPayloadType with
      | none => (.error (.unexpectedPayloadType recvPayloadType), rest)
      | some k =>
        match loads payload with
        | none => (.error .jsonError, rest)
        | some v => (.ok (k, v), rest)

/-! ## The command-dispatch worker (`message_dispatch_worker`) -/

/-- A queued message: `(msg, payload, res_handler)`.  The response handler
is identified by an opaque tag. -/
structure Request where
  msg : SwayMessage
  payload : List Nat
  handler : Nat
deriving DecidableEq, Repr

/-- How a modelled worker loop left off: it observed its stop signal and
returned; the modelled input ended while it was still going to block for
more (so it is still running); or an uncaught exception escaped the loop
and killed the worker thread. -/
inductive LoopEnd where
  | stopped
  | stillRunning
  | errored (e : RecvErr)
  | sendOverflow
deriving DecidableEq, Repr

/-- A handler invocation `res_handler(res_type, res_payload)`. -/
abbrev HandlerCall := Nat × SwayMessage × JsonValue

/-- The loop of `message_dispatch_worker`, processing the queued requests
in FIFO order against the response byte stream of the command socket: for
each request it sends the frame, performs a blocking receive of exactly
one response frame, and invokes the handler when the response classifies
as a `SwayMessage` (an event-classified response is skipped; a
`RuntimeError` from `recv_sway_msg` or an `OverflowError` /
`UnicodeEncodeError` from `send_sway_msg` is uncaught and kills the
worker).  An exhausted queue stands for the idle worker, which returns
once the stop event is observed. -/
def dispatchRun (queue : List Request) (stream : List Nat) :
    List HandlerCall × LoopEnd :=
  match queue with
  | [] => ([], .stopped)
  | r :: q =>
    match sendSwayMsg r.msg.value r.payload with
    | none => ([], .sendOverflow)
    | some _ =>
      match recvSwayMsg stream with
      | (.error .starved, _) => ([], .stillRunning)
      | (.error e, _) => ([], .errored e)
      | (.ok (.msg m, v), rest) =>
        let p := dispatchRun q rest
        ((r.handler, m, v) :: p.1, p.2)
      | (.ok (.ev _, _), rest) => dispatchRun q rest

/-- The observable socket actions of the dispatch worker, in order. -/
inductive DispatchAction where
  | sendReq (r : Request)
  | recvResp
  | callHandler (h : HandlerCall)
deriving Repr

/-- The action trace of the dispatch worker on the given queue and
response stream. -/
def dispatchActions (queue : List Request) (stream : List Nat) :
    List DispatchAction :=
  match queue with
  | [] => []
  | r :: q =>
    match sendSwayMsg r.msg.value r.payload with
    | none => []
    | some _ =>
      .sendReq r :: .recvResp ::
        match recvSwayMsg stream with
        | (.error _, _) => []
        | (.ok (.msg m, v), rest) =>
          .callHandler (r.handler, m, v) :: dispatchActions q rest
        | (.ok (.ev _, _), rest) => dispatchActions q rest

/-- Checking along an action trace that, starting from `k` requests in
flight, a request is only written when none is outstanding and every read
is of an outstanding request's response: the single in-flight-request
discipline. -/
def inflightOk (k : Nat) : List DispatchAction → Bool
  | [] => true
  | .sendReq _ :: as => decide (k = 0) && inflightOk (k + 1) as
  | .recvResp :: as => decide (k = 1) && inflightOk (k - 1) as
  | .callHandler _ :: as => inflightOk k as

/-- The byte stream of a sequence of well-formed response frames, as the
compositor would send them back to back on the command socket. -/
def encodeResponses (rs : List (SwayMessage × JsonValue)) : List Nat :=
  rs.flatMap (fun mv => frameBytes mv.1.value (dumps mv.2))

/-! ## The event worker (`event_worker`) -/

/-- One blocking receive attempt of the event read loop: either the
1-second socket timeout elapsed with no frame, or `recv_sway_msg`
completed with the given outcome. -/
inductive RecvOutcome where
  | timeout
  | frame (r : Except RecvErr (SwayKind × JsonValue))

/-- An event-handler invocation `event_handler(event_type, event_payload)`. -/
abbrev EventCall := SwayEvent × JsonValue

/-- The read loop of `event_worker` over a sequence of receive outcomes,
with the stop event's state fixed to `stopSet` throughout: a timeout is the
only point at which the stop event is consulted; a frame that classifies
as an event is delivered to the handler, a command-classified frame is
skipped, and an uncaught `RuntimeError` from `recv_sway_msg` kills the
loop (a starved receive stands for a read still in progress). -/
def eventLoop (stopSet : Bool) : List RecvOutcome → List EventCall × LoopEnd
  | [] => ([], .stillRunning)
  | .timeout :: rest =>
    if stopSet then ([], .stopped) else eventLoop stopSet rest
  | .frame (.error .starved) :: _ => ([], .stillRunning)
  | .frame (.error e) :: _ => ([], .errored e)
  | .frame (.ok (.ev e, v)) :: rest =>
    let p := eventLoop stopSet rest
    ((e, v) :: p.1, p.2)
  | .frame (.ok (.msg _, _)) :: rest => eventLoop stopSet rest

/-- Python-level errors raised by the modelled client methods and workers. -/
inductive PyErr where
  | attributeError
  | runtimeError
deriving DecidableEq, Repr

/-- Failure modes of the event worker before its read loop starts. -/
inductive WorkerErr where
  | sendOverflow
  | recvError (e : RecvErr)
  | attributeError
  | subscribeFailed
deriving DecidableEq, Repr

/-- The ASCII code points of the string `success`. -/
def successKey : List Nat := [115, 117, 99, 99, 101, 115, 115]

/-- The payload value serialized for the SUBSCRIBE command:
`json.dumps(list(map(str, events)))`. -/
def subscribePayloadJson (events : List SwayEvent) : JsonValue :=
  .arr (events.map (fun e => .str e.strName))

/-- The `res_payload.get("success")` lookup: only a dict has `.get`, so
any other payload raises `AttributeError`; an absent key yields `None`. -/
def pyDictGet (v : JsonValue) (k : List Nat) :
    Except PyErr (Option JsonValue) :=
  match v with
  | .obj ms => .ok ((ms.find? (fun p => p.1 = k)).map (fun p => p.2))
  | _ => .error .attributeError

/-- Python truthiness of a JSON value. -/
def pyTruthy : JsonValue → Bool
  | .null => false
  | .bool b => b
  | .int n => decide (n ≠ 0)
  | .str s => !s.isEmpty
  | .arr xs => !xs.isEmpty
  | .obj ms => !ms.isEmpty

/-- Python truthiness of an optional value (`None` is falsy). -/
def pyTruthyOpt : Option JsonValue → Bool
  | none => false
  | some v => pyTruthy v

/-- The result of running `event_worker`: the SUBSCRIBE frame it wrote (if
encoding succeeded), and either the error that killed the thread before
the read loop, or the read loop's behaviour. -/
structure EventWorkerResult where
  sentFrame : Option (List Nat)
  outcome : Except WorkerErr (List EventCall × LoopEnd)

/-- The `event_worker` body: sends a SUBSCRIBE frame for the given events,
receives the response from `respStream`, raises
`RuntimeError("Failed to subscribe to Sway events.")` when the response
payload's `success` entry is falsy or absent (never reaching the read
loop), and otherwise runs the read loop on `outcomes` with the stop
event's state `stopSet`. -/
def eventWorkerRun (events : List SwayEvent) (respStream : List Nat)
    (outcomes : List RecvOutcome) (stopSet : Bool) : EventWorkerResult :=
  match sendSwayMsg SwayMessage.SUBSCRIBE.value
      (dumps (subscribePayloadJson events)) with
  | none => ⟨none, .error .sendOverflow⟩
  | some frame =>
    match recvSwayMsg respStream with
    | (.error e, _) => ⟨some frame, .error (.recvError e)⟩
    | (.ok (_, payload), _) =>
      match pyDictGet payload successKey with
      | .error _ => ⟨some frame, .error .attributeError⟩
      | .ok mv =>
        if pyTruthyOpt mv then ⟨some frame, .ok (eventLoop stopSet outcomes)⟩
        else ⟨some frame, .error .subscribeFailed⟩

/-- Whether a modelled call completed without raising. -/
def exceptOk : Except PyErr ClientState → Bool
  | .ok _ => true
  | .error _ => false

/-- A receive outcome that delivered a decodable frame. -/
def isOkFrame : RecvOutcome → Bool
  | .frame (.ok _) => true
  | _ => false

/-- The event-handler calls produced by a sequence of receive outcomes:
one per frame that classifies as an event. -/
def eventsOf (outs : List RecvOutcome) : List EventCall :=
  outs.filterMap (fun o =>
    match o with
    | .frame (.ok (.ev e, v)) => some (e, v)
    | _ => none)

/-- The byte string of a SUBSCRIBE response frame whose payload is
`{"success":false}`. -/
def failRespBytes : List Nat :=
  MAGIC_STR ++ [17, 0, 0, 0] ++ [2, 0, 0, 0] ++
    [123, 34, 115, 117, 99, 99, 101, 115, 115, 34, 58, 102, 97, 108, 115,
     101, 125]

/-! ## The client facade (`SwayClient`) -/

/-- The state of a `SwayClient` instance.  Thread `Event` objects are
modelled as indices into the `flags` store (each `threading.Event()` call
appends a fresh unset flag); `_event_stop` and `_event_thread` are
class-level annotations with no initial assignment, so their model is
`Option (Option _)` — the outer `none` means the attribute has never been
assigned and reading it raises `AttributeError`. -/
structure ClientState where
  messageQueue : List Request
  flags : List Bool
  consumerStop : Option Nat
  consumerThreadSet : Bool
  eventStop : Option (Option Nat)
  eventThreadSet : Option Bool
  eventWorkers : List Nat
deriving DecidableEq, Repr

/-- The state built by `SwayClient.__init__`: an empty queue, a fresh
consumer stop event, a started consumer thread; `_event_stop` and
`_event_thread` not assigned. -/
def initClient : ClientState :=
  { messageQueue := []
    flags := [false]
    consumerStop := some 0
    consumerThreadSet := true
    eventStop := none
    eventThreadSet := none
    eventWorkers := [] }

/-- Model of `SwayClient.send`: unconditionally enqueues the message tuple; the
body cannot raise. -/
def clientSend (s : ClientState) (r : Request) : Except PyErr ClientState :=
  .ok { s with messageQueue := s.messageQueue ++ [r] }

/-- Model of `SwayClient.subscribe`: assigns a fresh stop event to `_event_stop`,
starts a new `event_worker` thread holding that event, and assigns
`_event_thread`; the body cannot raise and does not touch any previously
running event worker. -/
def clientSubscribe (s : ClientState) (_events : List SwayEvent)
    (_handler : Nat) : Except PyErr ClientState :=
  .ok { s with
    flags := s.flags ++ [false]
    eventStop := some (some s.flags.length)
    eventThreadSet := some true
    eventWorkers := s.eventWorkers ++ [s.flags.length] }

/-- Model of `SwayClient.unsubscribe`: reads `_event_stop` (raising
`AttributeError` when the attribute was never assigned), sets and clears
it when it is truthy, and assigns `None` to `_event_thread`. -/
def clientUnsubscribe (s : ClientState) : Except PyErr ClientState :=
  match s.eventStop with
  | none => .error .attributeError
  | some none => .ok { s with eventThreadSet := some false }
  | some (some i) =>
      .ok { s with
        flags := s.flags.set i true
        eventStop := some none
        eventThreadSet := some false }

/-- Model of `SwayClient.shutdown`: sets and clears the consumer stop event, clears
the consumer thread, then calls `unsubscribe` (whose `AttributeError` on a
never-subscribed client propagates). -/
def clientShutdown (s : ClientState) : Except PyErr ClientState :=
  let s1 :=
    match s.consumerStop with
    | some i =>
        { s with
          flags := s.flags.set i true
          consumerStop := none
          consumerThreadSet := false }
    | none => { s with consumerThreadSet := false }
  clientUnsubscribe s1

/-- The event workers of a client whose stop flag has not been set: the
read loops with no cause to exit. -/
def runningEventWorkers (s : ClientState) : List Nat :=
  s.eventWorkers.filter (fun i => s.flags.getD i true = false)

/-! ## The socket locator (`get_sway_socket_path`) -/

/-- Python whitespace stripped by `str.strip()` (the ASCII part). -/
def isPyWs (c : Nat) : Bool :=
  decide (c = 32) || decide (c = 9) || decide (c = 10) || decide (c = 13) ||
    decide (c = 11) || decide (c = 12)

/-- The `str.strip()` method. -/
def pyStrip (s : List Nat) : List Nat :=
  ((s.dropWhile isPyWs).reverse.dropWhile isPyWs).reverse

/-- The `get_sway_socket_path` function: the value of the `SWAYSOCK`
environment variable when set, else the stripped stdout of
`sway --get-socketpath`; the final `if path is None: raise RuntimeError`
check is kept as in the source (where `strip()` always returns a string,
so after the first branch `path` can no longer be `None`). -/
def get_sway_socket_path (swaysockEnv : Option (List Nat))
    (cmdStdout : List Nat) : Except PyErr (List Nat) :=
  let path : Option (List Nat) := swaysockEnv
  let path : Option (List Nat) :=
    match path with
    | none => some (pyStrip cmdStdout)
    | some p => some p
  match path with
  | none => .error .runtimeError
  | some p => .ok p


/-- Input whose head cannot extend a decimal number: the condition under
which a serialized integer is parsed back unambiguously. -/
def noDigitHead : List Nat → Bool
  | [] => true
  | c :: _ => decide (c < 48) || decide (57 < c)

/-- The payload used by the concrete codec witnesses:
`{"success": true}`. -/
def demoPayload : JsonValue :=
  .obj [([115, 117, 99, 99, 101, 115, 115], .bool true)]

/-- A concrete three-request queue for the dispatch witness. -/
def demoQueue : List Request :=
  [⟨.RUN_COMMAND, [], 1⟩, ⟨.GET_TREE, [], 2⟩, ⟨.GET_VERSION, [], 3⟩]

/-- Concrete responses, in order, for the dispatch witness. -/
def demoResponses : List (SwayMessage × JsonValue) :=
  [(.RUN_COMMAND, .null), (.GET_TREE, .bool true), (.GET_VERSION, .arr [])]

theorem toBytesLE_length (w n : Nat) : (toBytesLE w n).length = w := by
  induction w generalizing n with
  | zero => rfl
  | succ w ih => simp [toBytesLE, ih]

theorem fromBytesLE_toBytesLE (w n : Nat) (h : n < 256 ^ w) :
    fromBytesLE (toBytesLE w n) = n := by
  induction w generalizing n with
  | zero =>
      simp [Nat.pow_zero] at h
      simp [h, toBytesLE, fromBytesLE]
  | succ w ih =>
      have hdiv : n / 256 < 256 ^ w := by
        apply Nat.div_lt_of_lt_mul
        rw [Nat.pow_succ, Nat.mul_comm] at h
        exact h
      simp only [toBytesLE, fromBytesLE, List.foldr_cons]
      have := ih (n / 256) hdiv
      simp only [fromBytesLE] at this
      rw [this, Nat.add_comm, Nat.div_add_mod]

theorem utf8Encode_ascii (s : List Nat) (h : ∀ c ∈ s, c < 0x80) :
    utf8Encode s = s := by
  induction s with
  | nil => rfl
  | cons c cs ih =>
      have hc : c < 0x80 := h c (by simp)
      have ih' := ih fun x hx => h x (by simp [hx])
      simp only [utf8Encode, List.flatMap_cons] at *
      simp [utf8EncodeChar, hc, ih']

theorem utf8Decode_cons_ascii (b : Nat) (bs : List Nat) (hb : b < 0x80) :
    utf8Decode (b :: bs) = (utf8Decode bs).map (b :: ·) := by
  rw [utf8Decode, if_pos hb]

theorem utf8Decode_ascii (bs : List Nat) (h : ∀ b ∈ bs, b < 0x80) :
    utf8Decode bs = some bs := by
  induction bs with
  | nil => rfl
  | cons b t ih =>
      rw [utf8Decode_cons_ascii b t (h b (by simp)),
        ih fun x hx => h x (by simp [hx])]
      rfl

/-! ## Round-trip lemmas: strings -/

theorem parseHexDigit_hexDigitChar : ∀ d < 16,
    parseHexDigit (hexDigitChar d) = some d := by decide

theorem hex4_val (u : Nat) (h : u < 65536) :
    ((u / 4096 % 16 * 16 + u / 256 % 16) * 16 + u / 16 % 16) * 16 + u % 16
      = u := by omega

theorem escapeChar_length_pos (c : Nat) : 0 < (escapeChar c).length := by
  rw [escapeChar]
  by_cases h1 : c = 34
  · rw [if_pos h1]; decide
  rw [if_neg h1]
  by_cases h2 : c = 92
  · rw [if_pos h2]; decide
  rw [if_neg h2]
  by_cases h3 : c = 8
  · rw [if_pos h3]; decide
  rw [if_neg h3]
  by_cases h4 : c = 12
  · rw [if_pos h4]; decide
  rw [if_neg h4]
  by_cases h5 : c = 10
  · rw [if_pos h5]; decide
  rw [if_neg h5]
  by_cases h6 : c = 13
  · rw [if_pos h6]; decide
  rw [if_neg h6]
  by_cases h7 : c = 9
  · rw [if_pos h7]; decide
  rw [if_neg h7]
  by_cases h8 : c < 32
  · rw [if_pos h8]; simp [hex4]
  rw [if_neg h8]
  by_cases h9 : c < 127
  · rw [if_pos h9]; simp
  rw [if_neg h9]
  by_cases h10 : c < 65536
  · rw [if_pos h10]; simp [hex4]
  rw [if_neg h10]
  simp [hex4]

theorem parseStringGo_quote (fu : Nat) (t : List Nat) :
    parseStringGo (fu + 1) (34 :: t) = some ([], t) := by
  simp [parseStringGo]

theorem parseStringGo_u (fu : Nat) (h1 h2 h3 h4 : Nat) (d1 d2 d3 d4 : Nat)
    (t : List Nat)
    (e1 : parseHexDigit h1 = some d1) (e2 : parseHexDigit h2 = some d2)
    (e3 : parseHexDigit h3 = some d3) (e4 : parseHexDigit h4 = some d4)
    (hu : ¬(55296 ≤ ((d1 * 16 + d2) * 16 + d3) * 16 + d4 ∧
            ((d1 * 16 + d2) * 16 + d3) * 16 + d4 ≤ 56319)) :
    parseStringGo (fu + 1) (92 :: 117 :: h1 :: h2 :: h3 :: h4 :: t) =
      (parseStringGo fu t).map
        (fun p => ((((d1 * 16 + d2) * 16 + d3) * 16 + d4) :: p.1, p.2)) := by
  simp only [parseStringGo, e1, e2, e3, e4]
  rw [if_neg (by decide), if_pos (by decide)]
  rw [if_neg (by decide), if_neg (by decide), if_neg (by decide),
    if_neg (by decide), if_neg (by decide), if_neg (by decide),
    if_neg (by decide), if_neg (by decide), if_pos (by decide)]
  rw [if_neg hu]

theorem parseStringGo_uPair (fu : Nat) (h1 h2 h3 h4 g1 g2 g3 g4 : Nat)
    (d1 d2 d3 d4 k1 k2 k3 k4 : Nat) (t : List Nat)
    (e1 : parseHexDigit h1 = some d1) (e2 : parseHexDigit h2 = some d2)
    (e3 : parseHexDigit h3 = some d3) (e4 : parseHexDigit h4 = some d4)
    (f1 : parseHexDigit g1 = some k1) (f2 : parseHexDigit g2 = some k2)
    (f3 : parseHexDigit g3 = some k3) (f4 : parseHexDigit g4 = some k4)
    (hu : 55296 ≤ ((d1 * 16 + d2) * 16 + d3) * 16 + d4 ∧
          ((d1 * 16 + d2) * 16 + d3) * 16 + d4 ≤ 56319)
    (hu2 : 56320 ≤ ((k1 * 16 + k2) * 16 + k3) * 16 + k4 ∧
           ((k1 * 16 + k2) * 16 + k3) * 16 + k4 ≤ 57343) :
    parseStringGo (fu + 1)
        (92 :: 117 :: h1 :: h2 :: h3 :: h4 ::
          (92 :: 117 :: g1 :: g2 :: g3 :: g4 :: t)) =
      (parseStringGo fu t).map
        (fun p =>
          ((65536 + (((d1 * 16 + d2) * 16 + d3) * 16 + d4 - 55296) * 1024 +
              (((k1 * 16 + k2) * 16 + k3) * 16 + k4 - 56320)) :: p.1,
            p.2)) := by
  simp only [parseStringGo, e1, e2, e3, e4, f1, f2, f3, f4]
  rw [if_neg (by decide), if_pos (by decide)]
  rw [if_neg (by decide), if_neg (by decide), if_neg (by decide),
    if_neg (by decide), if_neg (by decide), if_neg (by decide),
    if_neg (by decide), if_neg (by decide), if_pos (by decide)]
  rw [if_pos hu, if_pos (by decide), if_pos hu2]

/-- One encoded character at the head of a string body parses back to that
character, consuming one unit of fuel. -/
theorem parseStringGo_escapeChar (c : Nat) (hs : isScalarCP c = true)
    (fu : Nat) (t : List Nat) :
    parseStringGo (fu + 1) (escapeChar c ++ t) =
      (parseStringGo fu t).map (fun p => (c :: p.1, p.2)) := by
  have hrange : c < 55296 ∨ (57344 ≤ c ∧ c < 1114112) := by
    simp [isScalarCP] at hs
    omega
  rw [escapeChar]
  by_cases h34 : c = 34
  · subst h34; rw [if_pos rfl]; simp [parseStringGo]
  rw [if_neg h34]
  by_cases h92 : c = 92
  · subst h92; rw [if_pos rfl]; simp [parseStringGo]
  rw [if_neg h92]
  by_cases h8 : c = 8
  · subst h8; rw [if_pos rfl]; simp [parseStringGo]
  rw [if_neg h8]
  by_cases h12 : c = 12
  · subst h12; rw [if_pos rfl]; simp [parseStringGo]
  rw [if_neg h12]
  by_cases h10 : c = 10
  · subst h10; rw [if_pos rfl]; simp [parseStringGo]
  rw [if_neg h10]
  by_cases h13 : c = 13
  · subst h13; rw [if_pos rfl]; simp [parseStringGo]
  rw [if_neg h13]
  by_cases h9 : c = 9
  · subst h9; rw [if_pos rfl]; simp [parseStringGo]
  rw [if_neg h9]
  by_cases hctl : c < 32
  · rw [if_pos hctl]
    simp only [hex4, List.cons_append, List.nil_append]
    rw [parseStringGo_u fu _ _ _ _ _ _ _ _ t
      (parseHexDigit_hexDigitChar _ (by omega))
      (parseHexDigit_hexDigitChar _ (by omega))
      (parseHexDigit_hexDigitChar _ (by omega))
      (parseHexDigit_hexDigitChar _ (by omega))
      (by rw [hex4_val c (by omega)]; omega)]
    rw [hex4_val c (by omega)]
  rw [if_neg hctl]
  by_cases hplain : c < 127
  · rw [if_pos hplain, List.cons_append, List.nil_append]
    simp only [parseStringGo]
    rw [if_neg h34, if_neg h92, if_neg (by omega)]
  rw [if_neg hplain]
  by_cases hbmp : c < 65536
  · rw [if_pos hbmp]
    simp only [hex4, List.cons_append, List.nil_append]
    rw [parseStringGo_u fu _ _ _ _ _ _ _ _ t
      (parseHexDigit_hexDigitChar _ (by omega))
      (parseHexDigit_hexDigitChar _ (by omega))
      (parseHexDigit_hexDigitChar _ (by omega))
      (parseHexDigit_hexDigitChar _ (by omega))
      (by rw [hex4_val c (by omega)]; omega)]
    rw [hex4_val c (by omega)]
  rw [if_neg hbmp]
  have hhc : c < 1114112 := by omega
  have hhilt : 55296 + (c - 65536) / 1024 < 65536 := by omega
  have hlolt : 56320 + (c - 65536) % 1024 < 65536 := by omega
  simp only [hex4, List.cons_append, List.nil_append, List.append_assoc]
  rw [parseStringGo_uPair fu _ _ _ _ _ _ _ _ _ _ _ _ _ _ _ _ t
    (parseHexDigit_hexDigitChar _ (by omega))
    (parseHexDigit_hexDigitChar _ (by omega))
    (parseHexDigit_hexDigitChar _ (by omega))
    (parseHexDigit_hexDigitChar _ (by omega))
    (parseHexDigit_hexDigitChar _ (by omega))
    (parseHexDigit_hexDigitChar _ (by omega))
    (parseHexDigit_hexDigitChar _ (by omega))
    (parseHexDigit_hexDigitChar _ (by omega))
    (by rw [hex4_val _ hhilt]; omega)
    (by rw [hex4_val _ hlolt]; omega)]
  rw [hex4_val _ hhilt, hex4_val _ hlolt]
  have : 65536 + (55296 + (c - 65536) / 1024 - 55296) * 1024 +
      (56320 + (c - 65536) % 1024 - 56320) = c := by omega
  rw [this]

theorem flatMap_escapeChar_length (s : List Nat) :
    s.length ≤ (s.flatMap escapeChar).length := by
  induction s with
  | nil => simp
  | cons c t ih =>
      simp only [List.flatMap_cons, List.length_append, List.length_cons]
      have := escapeChar_length_pos c
      omega

/-- The encoded body of a well-formed string followed by the closing quote
parses back to that string, for any sufficient fuel. -/
theorem parseStringGo_encode (s : List Nat) :
    ∀ (fuel : Nat) (rest : List Nat),
      (∀ c ∈ s, isScalarCP c = true) → s.length + 1 ≤ fuel →
      parseStringGo fuel (s.flatMap escapeChar ++ 34 :: rest) =
        some (s, rest) := by
  induction s with
  | nil =>
      intro fuel rest _ hf
      match fuel, hf with
      | fu + 1, _ => simp [parseStringGo_quote]
  | cons c s ih =>
      intro fuel rest hsc hf
      match fuel, hf with
      | fu + 1, hf2 =>
        rw [List.flatMap_cons, List.append_assoc,
          parseStringGo_escapeChar c (hsc c (by simp)) fu _,
          ih fu rest (fun x hx => hsc x (by simp [hx]))
            (by simp only [List.length_cons] at hf2; omega)]
        rfl

/-- The function `parseStringBody` (with its fuel instantiated to the input length) on
an encoded string literal body followed by arbitrary input. -/
theorem parseStringBody_encode (s : List Nat) (rest : List Nat)
    (hsc : ∀ c ∈ s, isScalarCP c = true) :
    parseStringBody (s.flatMap escapeChar ++ 34 :: rest) = some (s, rest) := by
  have h1 := flatMap_escapeChar_length s
  have hlen : s.length + 1 ≤ (s.flatMap escapeChar ++ 34 :: rest).length := by
    simp only [List.length_append, List.length_cons]
    omega
  exact parseStringGo_encode s _ rest hsc hlen

/-! ## Round-trip lemmas: numbers -/


theorem natDigits_digits (n : Nat) : ∀ c ∈ natDigits n, 48 ≤ c ∧ c ≤ 57 := by
  induction n using Nat.strong_induction_on with
  | _ n ih =>
      rw [natDigits]
      by_cases h : n < 10
      · rw [dif_pos h]
        intro c hc
        simp at hc
        omega
      · rw [dif_neg h]
        intro c hc
        rw [List.mem_append] at hc
        rcases hc with hc | hc
        · exact ih (n / 10) (Nat.div_lt_self (by omega) (by omega)) c hc
        · simp at hc
          have := Nat.mod_lt n (y := 10) (by omega)
          omega

theorem natDigits_head (n : Nat) (hn : 1 ≤ n) :
    ∃ c t, natDigits n = c :: t ∧ 49 ≤ c ∧ c ≤ 57 := by
  induction n using Nat.strong_induction_on with
  | _ n ih =>
      rw [natDigits]
      by_cases h : n < 10
      · exact ⟨48 + n, [], by rw [dif_pos h], by omega, by omega⟩
      · rw [dif_neg h]
        obtain ⟨c, t, heq, hc1, hc2⟩ :=
          ih (n / 10) (Nat.div_lt_self (by omega) (by omega))
            (by omega)
        refine ⟨c, t ++ [48 + n % 10], ?_, hc1, hc2⟩
        rw [heq]
        rfl

theorem takeDigits_append (ds : List Nat) (rest : List Nat)
    (hds : ∀ c ∈ ds, 48 ≤ c ∧ c ≤ 57) (hrest : noDigitHead rest = true) :
    takeDigits (ds ++ rest) = (ds, rest) := by
  induction ds with
  | nil =>
      cases rest with
      | nil => rfl
      | cons c t =>
          simp only [noDigitHead] at hrest
          simp at hrest
          simp only [List.nil_append, takeDigits]
          rw [if_neg (by omega)]
  | cons c ds ih =>
      have hc := hds c (by simp)
      have hih := ih (fun x hx => hds x (by simp [hx]))
      simp only [List.cons_append, takeDigits, if_pos (show 48 ≤ c ∧ c ≤ 57 by omega)]
      simp only [List.append_eq]
      rw [hih]

theorem digitsVal_append (a : Nat) (xs ys : List Nat) :
    digitsVal a (xs ++ ys) = digitsVal (digitsVal a xs) ys := by
  simp [digitsVal, List.foldl_append]

theorem digitsVal_natDigits (n : Nat) :
    ∀ a, digitsVal a (natDigits n) = a * 10 ^ (natDigits n).length + n := by
  induction n using Nat.strong_induction_on with
  | _ n ih =>
      intro a
      rw [natDigits]
      by_cases h : n < 10
      · rw [dif_pos h]
        simp [digitsVal]
      · rw [dif_neg h]
        rw [digitsVal_append,
          ih (n / 10) (Nat.div_lt_self (by omega) (by omega))]
        simp only [digitsVal, List.foldl_cons, List.foldl_nil,
          List.length_append, List.length_cons, List.length_nil]
        rw [Nat.pow_succ]
        have h48 : 48 + n % 10 - 48 = n % 10 := by omega
        have hdm : n / 10 * 10 + n % 10 = n := by omega
        calc (a * 10 ^ (natDigits (n / 10)).length + n / 10) * 10 +
              (48 + n % 10 - 48)
            = a * (10 ^ (natDigits (n / 10)).length * 10) +
              (n / 10 * 10 + n % 10) := by rw [h48]; ring
          _ = a * (10 ^ (natDigits (n / 10)).length * 10) + n := by rw [hdm]

theorem natDigits_zero : natDigits 0 = [48] := by
  rw [natDigits]
  rfl

theorem parseUnsigned_natDigits (n : Nat) (rest : List Nat)
    (hrest : noDigitHead rest = true) :
    parseUnsigned (natDigits n ++ rest) = some (n, rest) := by
  by_cases hn : n = 0
  · subst hn
    rw [natDigits_zero]
    simp only [List.cons_append, List.nil_append, parseUnsigned]
    simp
  · obtain ⟨c, t, heq, hc1, hc2⟩ := natDigits_head n (by omega)
    rw [heq, List.cons_append]
    simp only [parseUnsigned]
    rw [if_neg (by omega), if_pos (by omega)]
    rw [takeDigits_append t rest
      (fun x hx => natDigits_digits n x (by rw [heq]; simp [hx])) hrest]
    have hv : digitsVal (c - 48) t = n := by
      have h0 := digitsVal_natDigits n 0
      rw [heq] at h0
      simp only [digitsVal, List.foldl_cons, Nat.zero_mul, Nat.zero_add] at h0
      simpa [digitsVal] using h0
    rw [hv]

theorem parseNumber_intRepr (n : Int) (rest : List Nat)
    (hrest : noDigitHead rest = true) :
    parseNumber (intRepr n ++ rest) = some (n, rest) := by
  by_cases hneg : n < 0
  · rw [intRepr, if_pos hneg, List.cons_append]
    simp only [parseNumber, if_true]
    rw [parseUnsigned_natDigits n.natAbs rest hrest]
    show some (-(n.natAbs : Int), rest) = some (n, rest)
    rw [show -(n.natAbs : Int) = n from by omega]
  · rw [intRepr, if_neg hneg]
    have hpos : (0 : Int) ≤ n := by omega
    obtain ⟨c, t, heq⟩ : ∃ c t, natDigits n.natAbs = c :: t ∧ 48 ≤ c ∧ c ≤ 57 := by
      by_cases h0 : n.natAbs = 0
      · exact ⟨48, [], by rw [h0, natDigits_zero], by omega, by omega⟩
      · obtain ⟨c, t, heq, hc1, hc2⟩ := natDigits_head n.natAbs (by omega)
        exact ⟨c, t, heq, by omega, hc2⟩
    rw [heq.1, List.cons_append]
    simp only [parseNumber]
    rw [if_neg (by omega), ← List.cons_append, ← heq.1,
      parseUnsigned_natDigits n.natAbs rest hrest]
    show some ((n.natAbs : Int), rest) = some (n, rest)
    rw [show (n.natAbs : Int) = n from by omega]

/-! ## Structural facts about `dumps` output -/

theorem hexDigitChar_lt (d : Nat) (h : d < 41) : hexDigitChar d < 128 := by
  rw [hexDigitChar]
  by_cases h10 : d < 10
  · rw [if_pos h10]; omega
  · rw [if_neg h10]; omega

theorem hex4_ascii (n : Nat) : ∀ c ∈ hex4 n, c < 128 := by
  have h1 := hexDigitChar_lt (n / 4096 % 16) (by omega)
  have h2 := hexDigitChar_lt (n / 256 % 16) (by omega)
  have h3 := hexDigitChar_lt (n / 16 % 16) (by omega)
  have h4 := hexDigitChar_lt (n % 16) (by omega)
  intro c hc
  rw [hex4] at hc
  rcases List.mem_cons.mp hc with rfl | hc2
  · exact h1
  rcases List.mem_cons.mp hc2 with rfl | hc3
  · exact h2
  rcases List.mem_cons.mp hc3 with rfl | hc4
  · exact h3
  rcases List.mem_cons.mp hc4 with rfl | hc5
  · exact h4
  simp at hc5

theorem escapeChar_ascii (c : Nat) : ∀ b ∈ escapeChar c, b < 128 := by
  intro b hb
  rw [escapeChar] at hb
  by_cases h1 : c = 34
  · rw [if_pos h1] at hb; simp at hb; omega
  rw [if_neg h1] at hb
  by_cases h2 : c = 92
  · rw [if_pos h2] at hb; simp at hb; omega
  rw [if_neg h2] at hb
  by_cases h3 : c = 8
  · rw [if_pos h3] at hb; simp at hb; omega
  rw [if_neg h3] at hb
  by_cases h4 : c = 12
  · rw [if_pos h4] at hb; simp at hb; omega
  rw [if_neg h4] at hb
  by_cases h5 : c = 10
  · rw [if_pos h5] at hb; simp at hb; omega
  rw [if_neg h5] at hb
  by_cases h6 : c = 13
  · rw [if_pos h6] at hb; simp at hb; omega
  rw [if_neg h6] at hb
  by_cases h7 : c = 9
  · rw [if_pos h7] at hb; simp at hb; omega
  rw [if_neg h7] at hb
  by_cases h8 : c < 32
  · rw [if_pos h8] at hb
    simp only [List.mem_cons] at hb
    rcases hb with rfl | rfl | hb
    · omega
    · omega
    · exact hex4_ascii c b hb
  rw [if_neg h8] at hb
  by_cases h9 : c < 127
  · rw [if_pos h9] at hb; simp at hb; omega
  rw [if_neg h9] at hb
  by_cases h10 : c < 65536
  · rw [if_pos h10] at hb
    simp only [List.mem_cons] at hb
    rcases hb with rfl | rfl | hb
    · omega
    · omega
    · exact hex4_ascii c b hb
  rw [if_neg h10] at hb
  simp only [List.cons_append, List.mem_cons, List.mem_append] at hb
  rcases hb with rfl | rfl | hb | rfl | rfl | hb
  · omega
  · omega
  · exact hex4_ascii _ b hb
  · omega
  · omega
  · exact hex4_ascii _ b hb

theorem encodeString_ascii (s : List Nat) :
    ∀ b ∈ encodeString s, b < 128 := by
  intro b hb
  simp only [encodeString, List.mem_cons, List.mem_append,
    List.mem_flatMap] at hb
  rcases hb with hb | hb
  · rcases hb with rfl | ⟨a, _, ha⟩
    · omega
    · exact escapeChar_ascii a b ha
  · simp at hb; omega

theorem intRepr_ascii (n : Int) : ∀ b ∈ intRepr n, b < 128 := by
  intro b hb
  rw [intRepr] at hb
  by_cases h : n < 0
  · rw [if_pos h] at hb
    simp only [List.mem_cons] at hb
    rcases hb with rfl | hb
    · omega
    · have := natDigits_digits n.natAbs b hb; omega
  · rw [if_neg h] at hb
    have := natDigits_digits n.natAbs b hb; omega

theorem intRepr_head (n : Int) :
    ∃ c t, intRepr n = c :: t ∧ (c = 45 ∨ (48 ≤ c ∧ c ≤ 57)) := by
  rw [intRepr]
  by_cases h : n < 0
  · exact ⟨45, _, by rw [if_pos h], Or.inl rfl⟩
  · rw [if_neg h]
    by_cases h0 : n.natAbs = 0
    · exact ⟨48, [], by rw [h0, natDigits_zero], Or.inr (by omega)⟩
    · obtain ⟨c, t, heq, hc1, hc2⟩ := natDigits_head n.natAbs (by omega)
      exact ⟨c, t, heq, Or.inr (by omega)⟩

theorem dumps_null : dumps .null = [110, 117, 108, 108] := by rw [dumps]

theorem dumps_true : dumps (.bool true) = [116, 114, 117, 101] := by
  rw [dumps]

theorem dumps_false : dumps (.bool false) = [102, 97, 108, 115, 101] := by
  rw [dumps]

theorem dumps_int (n : Int) : dumps (.int n) = intRepr n := by rw [dumps]

theorem dumps_str (s : List Nat) : dumps (.str s) = encodeString s := by
  rw [dumps]

theorem dumps_arr_nil : dumps (.arr []) = [91, 93] := by rw [dumps]

theorem dumps_arr_cons (x : JsonValue) (xs : List JsonValue) :
    dumps (.arr (x :: xs)) = 91 :: dumpsList x xs ++ [93] := by rw [dumps]

theorem dumps_obj_nil : dumps (.obj []) = [123, 125] := by rw [dumps]

theorem dumps_obj_cons (m : List Nat × JsonValue)
    (ms : List (List Nat × JsonValue)) :
    dumps (.obj (m :: ms)) = 123 :: dumpsMembers m ms ++ [125] := by
  rw [dumps]

theorem dumpsList_single (x : JsonValue) : dumpsList x [] = dumps x := by
  rw [dumpsList]

theorem dumpsList_cons (x y : JsonValue) (ys : List JsonValue) :
    dumpsList x (y :: ys) = dumps x ++ [44, 32] ++ dumpsList y ys := by
  rw [dumpsList]

theorem dumpsMembers_single (m : List Nat × JsonValue) :
    dumpsMembers m [] = encodeString m.1 ++ [58, 32] ++ dumps m.2 := by
  rw [dumpsMembers]

theorem dumpsMembers_cons (m m2 : List Nat × JsonValue)
    (ms2 : List (List Nat × JsonValue)) :
    dumpsMembers m (m2 :: ms2) =
      encodeString m.1 ++ [58, 32] ++ dumps m.2 ++ [44, 32] ++
        dumpsMembers m2 ms2 := by
  rw [dumpsMembers]

/-- The first character of any serialized value: never whitespace, never a
closing bracket or brace. -/
theorem dumps_head (v : JsonValue) :
    ∃ c t, dumps v = c :: t ∧ isJsonWs c = false ∧ c ≠ 93 ∧ c ≠ 125 := by
  cases v with
  | null => exact ⟨110, _, dumps_null, by decide, by decide, by decide⟩
  | bool b =>
      cases b with
      | true => exact ⟨116, _, dumps_true, by decide, by decide, by decide⟩
      | false => exact ⟨102, _, dumps_false, by decide, by decide, by decide⟩
  | int n =>
      obtain ⟨c, t, heq, hc⟩ := intRepr_head n
      refine ⟨c, t, by rw [dumps_int, heq], ?_, by omega, by omega⟩
      simp [isJsonWs]
      omega
  | str s =>
      exact ⟨34, s.flatMap escapeChar ++ [34],
        by rw [dumps_str, encodeString, List.cons_append], by decide,
        by decide, by decide⟩
  | arr xs =>
      cases xs with
      | nil => exact ⟨91, [93], dumps_arr_nil, by decide, by decide, by decide⟩
      | cons x t =>
          exact ⟨91, dumpsList x t ++ [93],
            by rw [dumps_arr_cons, List.cons_append], by decide,
            by decide, by decide⟩
  | obj ms =>
      cases ms with
      | nil =>
          exact ⟨123, [125], dumps_obj_nil, by decide, by decide, by decide⟩
      | cons m t =>
          exact ⟨123, dumpsMembers m t ++ [125],
            by rw [dumps_obj_cons, List.cons_append], by decide,
            by decide, by decide⟩

theorem skipWs_cons_not_ws (c : Nat) (t : List Nat)
    (h : isJsonWs c = false) : skipWs (c :: t) = c :: t := by
  simp [skipWs, List.dropWhile, h]

theorem skipWs_dumps_append (v : JsonValue) (r : List Nat) :
    skipWs (dumps v ++ r) = dumps v ++ r := by
  obtain ⟨c, t, heq, hws, _, _⟩ := dumps_head v
  rw [heq, List.cons_append, skipWs_cons_not_ws c _ hws]

/-! ## Size and well-formedness unfolding equations -/

theorem sizeJ_null : sizeJ .null = 0 := by rw [sizeJ]
theorem sizeJ_bool (b : Bool) : sizeJ (.bool b) = 0 := by rw [sizeJ]
theorem sizeJ_int (n : Int) : sizeJ (.int n) = 0 := by rw [sizeJ]
theorem sizeJ_str (s : List Nat) : sizeJ (.str s) = 0 := by rw [sizeJ]
theorem sizeJ_arr (xs : List JsonValue) : sizeJ (.arr xs) = sizeL xs + 1 := by
  rw [sizeJ]
theorem sizeJ_obj (ms : List (List Nat × JsonValue)) :
    sizeJ (.obj ms) = sizeM ms + 1 := by rw [sizeJ]
theorem sizeL_nil : sizeL [] = 0 := by rw [sizeL]
theorem sizeL_cons (x : JsonValue) (t : List JsonValue) :
    sizeL (x :: t) = sizeJ x + sizeL t + 1 := by rw [sizeL]
theorem sizeM_nil : sizeM [] = 0 := by rw [sizeM]
theorem sizeM_cons (m : List Nat × JsonValue)
    (t : List (List Nat × JsonValue)) :
    sizeM (m :: t) = sizeJ m.2 + sizeM t + 1 := by cases m; rw [sizeM]

theorem wfJ_null : wfJ .null = true := by rw [wfJ]
theorem wfJ_bool (b : Bool) : wfJ (.bool b) = true := by rw [wfJ]
theorem wfJ_int (n : Int) : wfJ (.int n) = true := by rw [wfJ]
theorem wfL_nil : wfL [] = true := by rw [wfL]
theorem wfM_nil : wfM [] = true := by rw [wfM]
theorem wfJ_str (s : List Nat) : wfJ (.str s) = s.all isScalarCP := by
  rw [wfJ]
theorem wfJ_arr (xs : List JsonValue) : wfJ (.arr xs) = wfL xs := by rw [wfJ]
theorem wfJ_obj (ms : List (List Nat × JsonValue)) :
    wfJ (.obj ms) = (keysDistinct ms && wfM ms) := by rw [wfJ]
theorem wfL_cons (x : JsonValue) (t : List JsonValue) :
    wfL (x :: t) = (wfJ x && wfL t) := by rw [wfL]
theorem wfM_cons (m : List Nat × JsonValue)
    (t : List (List Nat × JsonValue)) :
    wfM (m :: t) = (m.1.all isScalarCP && wfJ m.2 && wfM t) := by
  cases m; rw [wfM]

/-! ## All `dumps` output is ASCII -/

theorem dumps_ascii_trio : ∀ n : Nat,
    (∀ v, sizeJ v ≤ n → ∀ c ∈ dumps v, c < 128) ∧
    (∀ x xs, sizeL (x :: xs) ≤ n → ∀ c ∈ dumpsList x xs, c < 128) ∧
    (∀ m ms, sizeM (m :: ms) ≤ n → ∀ c ∈ dumpsMembers m ms, c < 128) := by
  intro n
  induction n using Nat.strong_induction_on with
  | _ n IH =>
    refine ⟨?_, ?_, ?_⟩
    · intro v hsz c hc
      cases v with
      | null => rw [dumps_null] at hc; simp at hc; omega
      | bool b =>
          cases b with
          | true => rw [dumps_true] at hc; simp at hc; omega
          | false => rw [dumps_false] at hc; simp at hc; omega
      | int m => rw [dumps_int] at hc; exact intRepr_ascii m c hc
      | str s => rw [dumps_str] at hc; exact encodeString_ascii s c hc
      | arr xs =>
          cases xs with
          | nil => rw [dumps_arr_nil] at hc; simp at hc; omega
          | cons x t =>
              rw [dumps_arr_cons, List.cons_append] at hc
              rw [sizeJ_arr] at hsz
              have hlt : sizeL (x :: t) < n := by omega
              rcases List.mem_cons.mp hc with rfl | hc2
              · omega
              rcases List.mem_append.mp hc2 with hc3 | hc3
              · exact (IH _ hlt).2.1 x t le_rfl c hc3
              · simp at hc3; omega
      | obj ms =>
          cases ms with
          | nil => rw [dumps_obj_nil] at hc; simp at hc; omega
          | cons m t =>
              rw [dumps_obj_cons, List.cons_append] at hc
              rw [sizeJ_obj] at hsz
              have hlt : sizeM (m :: t) < n := by omega
              rcases List.mem_cons.mp hc with rfl | hc2
              · omega
              rcases List.mem_append.mp hc2 with hc3 | hc3
              · exact (IH _ hlt).2.2 m t le_rfl c hc3
              · simp at hc3; omega
    · intro x xs hsz c hc
      rw [sizeL_cons] at hsz
      cases xs with
      | nil =>
          rw [dumpsList_single] at hc
          have hlt : sizeJ x < n := by omega
          exact (IH _ hlt).1 x le_rfl c hc
      | cons y ys =>
          rw [dumpsList_cons] at hc
          rw [sizeL_cons] at hsz
          have hx : sizeJ x < n := by omega
          have hys : sizeL (y :: ys) < n := by rw [sizeL_cons]; omega
          rcases List.mem_append.mp hc with hc2 | hc2
          · rcases List.mem_append.mp hc2 with hc3 | hc3
            · exact (IH _ hx).1 x le_rfl c hc3
            · simp at hc3; omega
          · exact (IH _ hys).2.1 y ys le_rfl c hc2
    · intro m ms hsz c hc
      rw [sizeM_cons] at hsz
      cases ms with
      | nil =>
          rw [dumpsMembers_single] at hc
          have hlt : sizeJ m.2 < n := by omega
          rcases List.mem_append.mp hc with hc2 | hc2
          · rcases List.mem_append.mp hc2 with hc3 | hc3
            · exact encodeString_ascii m.1 c hc3
            · simp at hc3; omega
          · exact (IH _ hlt).1 m.2 le_rfl c hc2
      | cons m2 ms2 =>
          rw [dumpsMembers_cons] at hc
          rw [sizeM_cons] at hsz
          have hv : sizeJ m.2 < n := by omega
          have hms : sizeM (m2 :: ms2) < n := by rw [sizeM_cons]; omega
          rcases List.mem_append.mp hc with hc2 | hc2
          · rcases List.mem_append.mp hc2 with hc3 | hc3
            · rcases List.mem_append.mp hc3 with hc4 | hc4
              · rcases List.mem_append.mp hc4 with hc5 | hc5
                · exact encodeString_ascii m.1 c hc5
                · simp at hc5; omega
              · exact (IH _ hv).1 m.2 le_rfl c hc4
            · simp at hc3; omega
          · exact (IH _ hms).2.2 m2 ms2 le_rfl c hc2

/-- Every byte of `json.dumps` output is ASCII (`ensure_ascii=True`), so
its character count equals its UTF-8 byte count. -/
theorem dumps_ascii (v : JsonValue) : ∀ c ∈ dumps v, c < 128 :=
  (dumps_ascii_trio (sizeJ v)).1 v le_rfl

/-! ## The parser fuel bound: structural size is covered by output length -/

theorem sizeJ_le_dumps_length_trio : ∀ n : Nat,
    (∀ v, sizeJ v ≤ n → sizeJ v ≤ (dumps v).length) ∧
    (∀ x xs, sizeL (x :: xs) ≤ n →
      sizeL (x :: xs) ≤ (dumpsList x xs).length + 1) ∧
    (∀ m ms, sizeM (m :: ms) ≤ n →
      sizeM (m :: ms) ≤ (dumpsMembers m ms).length + 1) := by
  intro n
  induction n using Nat.strong_induction_on with
  | _ n IH =>
    refine ⟨?_, ?_, ?_⟩
    · intro v hsz
      cases v with
      | null => rw [sizeJ_null]; omega
      | bool b => rw [sizeJ_bool]; omega
      | int m => rw [sizeJ_int]; omega
      | str s => rw [sizeJ_str]; omega
      | arr xs =>
          cases xs with
          | nil => rw [sizeJ_arr, sizeL_nil, dumps_arr_nil]; simp
          | cons x t =>
              rw [sizeJ_arr] at hsz ⊢
              have hlt : sizeL (x :: t) < n := by omega
              have := (IH _ hlt).2.1 x t le_rfl
              rw [dumps_arr_cons, List.cons_append]
              simp only [List.length_cons, List.length_append,
                List.length_cons, List.length_nil]
              omega
      | obj ms =>
          cases ms with
          | nil => rw [sizeJ_obj, sizeM_nil, dumps_obj_nil]; simp
          | cons m t =>
              rw [sizeJ_obj] at hsz ⊢
              have hlt : sizeM (m :: t) < n := by omega
              have := (IH _ hlt).2.2 m t le_rfl
              rw [dumps_obj_cons, List.cons_append]
              simp only [List.length_cons, List.length_append,
                List.length_nil]
              omega
    · intro x xs hsz
      rw [sizeL_cons] at hsz ⊢
      cases xs with
      | nil =>
          rw [sizeL_nil, dumpsList_single]
          have hx : sizeJ x < n := by rw [sizeL_nil] at hsz; omega
          have := (IH _ hx).1 x le_rfl
          omega
      | cons y ys =>
          rw [sizeL_cons] at hsz
          have hx : sizeJ x < n := by omega
          have hys : sizeL (y :: ys) < n := by rw [sizeL_cons]; omega
          have h1 := (IH _ hx).1 x le_rfl
          have h2 := (IH _ hys).2.1 y ys le_rfl
          rw [dumpsList_cons]
          simp only [List.length_append, List.length_cons, List.length_nil]
          rw [sizeL_cons] at h2 ⊢
          omega
    · intro m ms hsz
      rw [sizeM_cons] at hsz ⊢
      cases ms with
      | nil =>
          rw [sizeM_nil, dumpsMembers_single]
          have hv : sizeJ m.2 < n := by rw [sizeM_nil] at hsz; omega
          have := (IH _ hv).1 m.2 le_rfl
          simp only [List.length_append, List.length_cons, List.length_nil]
          omega
      | cons m2 ms2 =>
          rw [sizeM_cons] at hsz
          have hv : sizeJ m.2 < n := by omega
          have hms : sizeM (m2 :: ms2) < n := by rw [sizeM_cons]; omega
          have h1 := (IH _ hv).1 m.2 le_rfl
          have h2 := (IH _ hms).2.2 m2 ms2 le_rfl
          rw [dumpsMembers_cons]
          simp only [List.length_append, List.length_cons, List.length_nil]
          rw [sizeM_cons] at h2 ⊢
          omega

theorem sizeJ_le_dumps_length (v : JsonValue) :
    sizeJ v ≤ (dumps v).length :=
  (sizeJ_le_dumps_length_trio (sizeJ v)).1 v le_rfl

/-! ## Python dict reconstruction -/

theorem dictSet_append (acc : List (List Nat × JsonValue)) (k : List Nat)
    (v : JsonValue) (h : ∀ q ∈ acc, ¬(q.1 = k)) :
    dictSet acc k v = acc ++ [(k, v)] := by
  rw [dictSet, if_neg]
  simp only [List.any_eq_true, decide_eq_true_eq]
  rintro ⟨q, hq, hqk⟩
  exact h q hq hqk

theorem keysDistinct_cons (m : List Nat × JsonValue)
    (ms : List (List Nat × JsonValue)) :
    keysDistinct (m :: ms) =
      (ms.all (fun m2 => ¬(m2.1 = m.1)) && keysDistinct ms) := rfl

theorem pyDict_go (ps : List (List Nat × JsonValue)) :
    ∀ acc, (∀ p ∈ ps, ∀ q ∈ acc, ¬(q.1 = p.1)) → keysDistinct ps = true →
    ps.foldl (fun acc p => dictSet acc p.1 p.2) acc = acc ++ ps := by
  induction ps with
  | nil => intro acc _ _; simp
  | cons p ps ih =>
      intro acc hacc hd
      rw [keysDistinct_cons] at hd
      simp only [Bool.and_eq_true, List.all_eq_true, decide_eq_true_eq] at hd
      simp only [List.foldl_cons]
      rw [dictSet_append acc p.1 p.2 (fun q hq => hacc p (by simp) q hq)]
      rw [ih (acc ++ [(p.1, p.2)]) ?_ hd.2]
      · simp
      · intro r hr q hq
        rcases List.mem_append.mp hq with hq2 | hq2
        · exact hacc r (by simp [hr]) q hq2
        · simp at hq2
          subst hq2
          intro hcontra
          exact hd.1 r hr hcontra.symm

/-- A dict `dict(pairs)` built from distinct keys is the pair list itself. -/
theorem pyDict_eq (ps : List (List Nat × JsonValue))
    (hd : keysDistinct ps = true) : pyDict ps = ps := by
  rw [pyDict, pyDict_go ps [] (by simp) hd]
  simp

/-! ## Heads of serialized element and member lists -/

theorem dumpsList_head (x : JsonValue) (xs : List JsonValue) :
    ∃ c t, dumpsList x xs = c :: t ∧ isJsonWs c = false ∧ c ≠ 93 ∧
      c ≠ 125 := by
  obtain ⟨c, t, heq, h1, h2, h3⟩ := dumps_head x
  cases xs with
  | nil => exact ⟨c, t, by rw [dumpsList_single, heq], h1, h2, h3⟩
  | cons y ys =>
      exact ⟨c, t ++ [44, 32] ++ dumpsList y ys,
        by rw [dumpsList_cons, heq]; simp, h1, h2, h3⟩

theorem dumpsMembers_head (m : List Nat × JsonValue)
    (ms : List (List Nat × JsonValue)) :
    ∃ t, dumpsMembers m ms = 34 :: t := by
  cases ms with
  | nil =>
      exact ⟨m.1.flatMap escapeChar ++ [34] ++ ([58, 32] ++ dumps m.2),
        by rw [dumpsMembers_single, encodeString]; simp⟩
  | cons m2 ms2 =>
      refine ⟨m.1.flatMap escapeChar ++ [34] ++
        ([58, 32] ++ dumps m.2 ++ [44, 32] ++ dumpsMembers m2 ms2), ?_⟩
      rw [dumpsMembers_cons, encodeString]
      simp

theorem skipWs_cons_ws (c : Nat) (t : List Nat) (h : isJsonWs c = true) :
    skipWs (c :: t) = skipWs t := by
  simp [skipWs, List.dropWhile, h]

theorem skipWs_dumpsList_append (x : JsonValue) (xs : List JsonValue)
    (r : List Nat) :
    skipWs (dumpsList x xs ++ r) = dumpsList x xs ++ r := by
  obtain ⟨c, t, heq, hws, _, _⟩ := dumpsList_head x xs
  rw [heq, List.cons_append, skipWs_cons_not_ws c _ hws]

/-! ## The parser inverts the serializer -/

theorem parseValue_arr_cons_step (f : Nat) (l rest' : List Nat) (ch : Nat)
    (ct : List Nat) (hch : l = ch :: ct) (hws : isJsonWs ch = false)
    (h93 : ¬(ch = 93)) :
    parseValue (f + 1) (91 :: (l ++ 93 :: rest')) =
      (parseElems f (l ++ 93 :: rest')).map
        (fun p => (JsonValue.arr p.1, p.2)) := by
  subst hch
  simp only [parseValue, List.cons_append]
  rw [skipWs_cons_not_ws ch _ hws]
  simp [h93]

theorem parseValue_obj_cons_step (f : Nat) (l rest' : List Nat)
    (ct : List Nat) (hl : l = 34 :: ct) :
    parseValue (f + 1) (123 :: (l ++ 125 :: rest')) =
      (parseMembers f (l ++ 125 :: rest')).map
        (fun p => (JsonValue.obj (pyDict p.1), p.2)) := by
  subst hl
  simp only [parseValue, List.cons_append]
  rw [skipWs_cons_not_ws 34 _ (by decide)]
  simp

theorem parse_trio : ∀ n : Nat,
    (∀ v rest, sizeJ v < n → wfJ v = true → noDigitHead rest = true →
      parseValue n (dumps v ++ rest) = some (v, rest)) ∧
    (∀ x xs rest, sizeL (x :: xs) < n → wfL (x :: xs) = true →
      parseElems n (dumpsList x xs ++ 93 :: rest) = some (x :: xs, rest)) ∧
    (∀ m ms rest, sizeM (m :: ms) < n → wfM (m :: ms) = true →
      parseMembers n (dumpsMembers m ms ++ 125 :: rest) =
        some (m :: ms, rest)) := by
  intro n
  induction n using Nat.strong_induction_on with
  | _ n IH =>
    refine ⟨?_, ?_, ?_⟩
    · intro v rest hsz hwf hrest
      obtain ⟨f, rfl⟩ : ∃ f, n = f + 1 := ⟨n - 1, by omega⟩
      cases v with
      | null => rw [dumps_null]; simp [parseValue, parseKeyword]
      | bool b =>
          cases b with
          | true => rw [dumps_true]; simp [parseValue, parseKeyword]
          | false => rw [dumps_false]; simp [parseValue, parseKeyword]
      | int m =>
          rw [dumps_int]
          obtain ⟨c, t, heq, hc⟩ := intRepr_head m
          have hnum : parseNumber (intRepr m ++ rest) = some (m, rest) :=
            parseNumber_intRepr m rest hrest
          rw [heq] at hnum ⊢
          rw [List.cons_append] at hnum ⊢
          have h1 : ¬(c = 34) := by omega
          have h2 : ¬(c = 91) := by omega
          have h3 : ¬(c = 123) := by omega
          have h4 : ¬(c = 110) := by omega
          have h5 : ¬(c = 116) := by omega
          have h6 : ¬(c = 102) := by omega
          simp [parseValue, h1, h2, h3, h4, h5, h6, hnum]
      | str s =>
          rw [dumps_str, encodeString]
          rw [wfJ_str] at hwf
          have hsc : ∀ c2 ∈ s, isScalarCP c2 = true := by
            simpa [List.all_eq_true] using hwf
          have hsb := parseStringBody_encode s rest hsc
          simp only [List.cons_append, List.append_assoc,
            List.singleton_append]
          simp [parseValue, hsb]
      | arr xs =>
          cases xs with
          | nil =>
              rw [dumps_arr_nil]
              simp [parseValue, skipWs, List.dropWhile, isJsonWs]
          | cons x t =>
              rw [dumps_arr_cons]
              rw [sizeJ_arr] at hsz
              rw [wfJ_arr] at hwf
              have helems :=
                (IH f (by omega)).2.1 x t rest (by omega) hwf
              obtain ⟨ch, ct, hch, hws, h93, _⟩ := dumpsList_head x t
              simp only [List.cons_append, List.append_assoc,
                List.singleton_append, List.nil_append]
              rw [parseValue_arr_cons_step f _ rest ch ct hch hws h93,
                helems]
              rfl
      | obj ms =>
          cases ms with
          | nil =>
              rw [dumps_obj_nil]
              simp [parseValue, skipWs, List.dropWhile, isJsonWs]
          | cons m t =>
              rw [dumps_obj_cons]
              rw [sizeJ_obj] at hsz
              rw [wfJ_obj] at hwf
              simp only [Bool.and_eq_true] at hwf
              have hmems :=
                (IH f (by omega)).2.2 m t rest (by omega) hwf.2
              obtain ⟨ct, hct⟩ := dumpsMembers_head m t
              simp only [List.cons_append, List.append_assoc,
                List.singleton_append, List.nil_append]
              rw [parseValue_obj_cons_step f _ rest ct hct, hmems]
              simp [pyDict_eq (m :: t) hwf.1]
    · intro x xs rest hsz hwf
      obtain ⟨g, rfl⟩ : ∃ g, n = g + 1 := ⟨n - 1, by omega⟩
      rw [sizeL_cons] at hsz
      rw [wfL_cons] at hwf
      simp only [Bool.and_eq_true] at hwf
      cases xs with
      | nil =>
          rw [dumpsList_single]
          have hv := (IH g (by omega)).1 x (93 :: rest)
            (by rw [sizeL_nil] at hsz; omega) hwf.1 rfl
          simp [parseElems, hv, skipWs, List.dropWhile, isJsonWs]
      | cons y ys =>
          rw [dumpsList_cons]
          rw [sizeL_cons] at hsz
          simp only [List.append_assoc, List.cons_append,
            List.nil_append]
          have hv := (IH g (by omega)).1 x
            (44 :: 32 :: (dumpsList y ys ++ 93 :: rest))
            (by omega) hwf.1 rfl
          have hys := (IH g (by omega)).2.1 y ys rest
            (by rw [sizeL_cons]; omega) hwf.2
          have hskip2 := skipWs_dumpsList_append y ys (93 :: rest)
          simp [parseElems, hv, hys, hskip2, skipWs_cons_not_ws 44 _
            (by decide), skipWs_cons_ws 32 _ (by decide)]
    · intro m ms rest hsz hwf
      obtain ⟨g, rfl⟩ : ∃ g, n = g + 1 := ⟨n - 1, by omega⟩
      rw [sizeM_cons] at hsz
      rw [wfM_cons] at hwf
      simp only [Bool.and_eq_true] at hwf
      have hksc : ∀ c ∈ m.1, isScalarCP c = true := by
        simpa [List.all_eq_true] using hwf.1.1
      cases ms with
      | nil =>
          rw [dumpsMembers_single, encodeString]
          simp only [List.cons_append, List.append_assoc,
            List.singleton_append, List.nil_append]
          have hsb := parseStringBody_encode m.1
            (58 :: 32 :: (dumps m.2 ++ 125 :: rest)) hksc
          have hv := (IH g (by omega)).1 m.2 (125 :: rest)
            (by rw [sizeM_nil] at hsz; omega) hwf.1.2 rfl
          have hskipv := skipWs_dumps_append m.2 (125 :: rest)
          simp [parseMembers, hsb, hv, hskipv,
            skipWs_cons_not_ws 58 _ (by decide),
            skipWs_cons_ws 32 _ (by decide),
            skipWs_cons_not_ws 125 _ (by decide)]
      | cons m2 ms2 =>
          rw [dumpsMembers_cons, encodeString]
          rw [sizeM_cons] at hsz
          simp only [List.cons_append, List.append_assoc,
            List.singleton_append, List.nil_append]
          have hsb := parseStringBody_encode m.1
            (58 :: 32 :: (dumps m.2 ++ 44 :: 32 ::
              (dumpsMembers m2 ms2 ++ 125 :: rest))) hksc
          have hv := (IH g (by omega)).1 m.2
            (44 :: 32 :: (dumpsMembers m2 ms2 ++ 125 :: rest))
            (by omega) hwf.1.2 rfl
          have hskipv := skipWs_dumps_append m.2
            (44 :: 32 :: (dumpsMembers m2 ms2 ++ 125 :: rest))
          have hms := (IH g (by omega)).2.2 m2 ms2 rest
            (by rw [sizeM_cons]; omega) hwf.2
          have hskipm : skipWs (dumpsMembers m2 ms2 ++ 125 :: rest) =
              dumpsMembers m2 ms2 ++ 125 :: rest := by
            obtain ⟨ct2, hct2⟩ := dumpsMembers_head m2 ms2
            rw [hct2, List.cons_append, skipWs_cons_not_ws 34 _ (by decide)]
          simp [parseMembers, hsb, hv, hskipv, hms, hskipm,
            skipWs_cons_not_ws 58 _ (by decide),
            skipWs_cons_ws 32 _ (by decide),
            skipWs_cons_not_ws 44 _ (by decide)]

/-- The decoder `json.loads` inverts `json.dumps` on every well-formed value of the
modelled JSON fragment. -/
theorem loads_dumps (v : JsonValue) (hwf : wfJ v = true) :
    loads (dumps v) = some v := by
  have hascii := dumps_ascii v
  rw [loads, utf8Decode_ascii (dumps v) hascii]
  obtain ⟨c, t, heq, hws, _, _⟩ := dumps_head v
  have hskip : skipWs (dumps v) = dumps v := by
    rw [heq, skipWs_cons_not_ws c t hws]
  simp only [hskip]
  have hlen := sizeJ_le_dumps_length v
  have := (parse_trio ((dumps v).length + 1)).1 v [] (by omega) hwf
    (by decide)
  rw [List.append_nil] at this
  rw [this]
  simp [skipWs]

/-! ## Frame codec lemmas -/

theorem messageFromCode_value (m : SwayMessage) :
    messageFromCode m.value = some m := by cases m <;> rfl

theorem eventFromCode_value (e : SwayEvent) :
    eventFromCode e.value = some e := by cases e <;> rfl

theorem messageFromCode_event (e : SwayEvent) :
    messageFromCode e.value = none := by cases e <;> rfl

theorem classifyCode_msg (m : SwayMessage) :
    classifyCode m.value = some (.msg m) := by
  rw [classifyCode, messageFromCode_value]

theorem classifyCode_ev (e : SwayEvent) :
    classifyCode e.value = some (.ev e) := by
  rw [classifyCode, messageFromCode_event, eventFromCode_value]
  rfl

theorem SwayMessage.msgValue_lt (m : SwayMessage) : m.value < 2 ^ 32 := by
  cases m <;> decide

theorem SwayEvent.evValue_lt (e : SwayEvent) : e.value < 2 ^ 32 := by
  cases e <;> decide

/-- Structure of `recv_sway_msg` on a stream that begins with a whole
frame: the fixed-size header and the declared number of payload bytes are
consumed, the declared type code is classified, and the remainder of the
stream is exactly what follows the payload. -/
theorem recvSwayMsg_decomp (m l t payload rest : List Nat)
    (hm : m.length = 6) (hl : l.length = 4) (ht : t.length = 4)
    (hp : payload.length = fromBytesLE l) :
    recvSwayMsg (m ++ l ++ t ++ payload ++ rest) =
      ((match classifyCode (fromBytesLE t) with
        | none => .error (.unexpectedPayloadType (fromBytesLE t))
        | some k =>
          match loads payload with
          | none => .error .jsonError
          | some v => .ok (k, v)), rest) := by
  have hstream : m ++ l ++ t ++ payload ++ rest =
      (m ++ l ++ t) ++ (payload ++ rest) := by simp
  have hhdr : (m ++ l ++ t).length = 14 := by simp [hm, hl, ht]
  rw [recvSwayMsg, hstream]
  have hlen1 : ¬(((m ++ l ++ t) ++ (payload ++ rest)).length < HEADER_LEN) := by
    simp only [List.length_append, hhdr, HEADER_LEN, MAGIC_STR_LEN,
      MAGIC_STR, PAYLOAD_LENGTH_LEN, PAYLOAD_TYPE_LEN]
    simp
  rw [if_neg hlen1]
  have htake : ((m ++ l ++ t) ++ (payload ++ rest)).take HEADER_LEN =
      m ++ l ++ t := by
    rw [show HEADER_LEN = 14 from rfl]
    exact List.take_left' hhdr
  have hdrop : ((m ++ l ++ t) ++ (payload ++ rest)).drop HEADER_LEN =
      payload ++ rest := by
    rw [show HEADER_LEN = 14 from rfl]
    exact List.drop_left' hhdr
  rw [htake, hdrop]
  have hslice1 : ((m ++ l ++ t).drop PAYLOAD_LENGTH_BEGIN).take
      PAYLOAD_LENGTH_LEN = l := by
    rw [show PAYLOAD_LENGTH_BEGIN = 6 from rfl,
      show PAYLOAD_LENGTH_LEN = 4 from rfl]
    rw [List.append_assoc, List.drop_left' hm]
    exact List.take_left' hl
  have hslice2 : ((m ++ l ++ t).drop PAYLOAD_TYPE_BEGIN).take
      PAYLOAD_TYPE_LEN = t := by
    rw [show PAYLOAD_TYPE_BEGIN = 10 from rfl,
      show PAYLOAD_TYPE_LEN = 4 from rfl]
    rw [List.drop_left' (by simp [hm, hl])]
    rw [← ht, List.take_length]
  dsimp only
  rw [hslice1, hslice2]
  have hlen2 : ¬((payload ++ rest).length < fromBytesLE l) := by
    simp only [List.length_append]
    omega
  rw [if_neg hlen2]
  rw [List.take_left' hp, List.drop_left' hp]
  cases classifyCode (fromBytesLE t) with
  | none => rfl
  | some k =>
      cases loads payload with
      | none => rfl
      | some v => rfl

/-- Any frame assembled by the encoder decodes to its classified kind and
parsed payload, leaving exactly the trailing stream unread. -/
theorem recv_frameBytes (code : Nat) (p : JsonValue) (rest : List Nat)
    (k : SwayKind) (hcode : code < 2 ^ 32) (hclass : classifyCode code = some k)
    (hwf : wfJ p = true) (hlen : (dumps p).length < 2 ^ 32) :
    recvSwayMsg (frameBytes code (dumps p) ++ rest) = (.ok (k, p), rest) := by
  have hascii := dumps_ascii p
  rw [frameBytes, utf8Encode_ascii (dumps p) hascii]
  have h256 : (2 : Nat) ^ 32 = 256 ^ 4 := by norm_num
  have hfromL : fromBytesLE (toBytesLE 4 (dumps p).length) = (dumps p).length :=
    fromBytesLE_toBytesLE 4 _ (by omega)
  have hfromT : fromBytesLE (toBytesLE 4 code) = code :=
    fromBytesLE_toBytesLE 4 _ (by omega)
  rw [recvSwayMsg_decomp MAGIC_STR _ _ _ rest rfl (toBytesLE_length 4 _)
    (toBytesLE_length 4 _) hfromL.symm]
  rw [hfromT, hclass, loads_dumps p hwf]

/-- Claim C1: round trip of the frame codec.  For every `SwayMessage` kind
`k` and every well-formed JSON payload `p` whose serialization fits the
4-byte length field, `send_sway_msg` produces the frame
`MAGIC || len || code || utf8(payload)`, feeding that frame to
`recv_sway_msg` yields exactly `(k, p)` with the whole stream consumed,
and the length field written by the encoder (the character count) equals
the number of UTF-8 payload bytes the decoder reads, because
`json.dumps` output is pure ASCII. -/
theorem sway_codec_roundtrip (k : SwayMessage) (p : JsonValue)
    (hwf : wfJ p = true) (hlen : (dumps p).length < 2 ^ 32) :
    sendSwayMsg k.value (dumps p) = some (frameBytes k.value (dumps p)) ∧
    recvSwayMsg (frameBytes k.value (dumps p)) = (.ok (.msg k, p), []) ∧
    (utf8Encode (dumps p)).length = (dumps p).length := by
  have hascii := dumps_ascii p
  refine ⟨?_, ?_, ?_⟩
  · rw [sendSwayMsg, if_pos]
    refine ⟨hlen, k.msgValue_lt, ?_⟩
    rw [List.all_eq_true]
    intro c hc
    have := hascii c hc
    simp [isScalarCP]
    omega
  · have h := recv_frameBytes k.value p [] (.msg k) k.msgValue_lt
      (classifyCode_msg k) hwf hlen
    rw [List.append_nil] at h
    exact h
  · rw [utf8Encode_ascii _ hascii]


theorem sway_codec_roundtrip_witness :
    sendSwayMsg SwayMessage.GET_WORKSPACES.value (dumps demoPayload) =
      some (frameBytes SwayMessage.GET_WORKSPACES.value (dumps demoPayload)) ∧
    recvSwayMsg (frameBytes SwayMessage.GET_WORKSPACES.value
      (dumps demoPayload)) = (.ok (.msg .GET_WORKSPACES, demoPayload), []) ∧
    (utf8Encode (dumps demoPayload)).length = (dumps demoPayload).length :=
  sway_codec_roundtrip .GET_WORKSPACES demoPayload
    (by simp [demoPayload, wfJ_obj, wfM_cons, wfM_nil, wfJ_bool,
      keysDistinct, isScalarCP])
    (by simp [demoPayload, dumps_obj_cons, dumpsMembers_single, dumps_true,
      encodeString, escapeChar])

/-- Claim C2: a frame whose declared type code is neither one of the 15
command codes nor one of the 9 event codes makes `recv_sway_msg` raise
(`RuntimeError("Unexpected payload type received")` — the spec's
`ProtocolError`), and only after exactly the fixed-size header plus the
declared payload length has been consumed from the stream, so the stream
position is resynchronized for the next read. -/
theorem recv_unknown_code_resync (m l t payload rest : List Nat) (code : Nat)
    (hm : m.length = 6) (hl : l.length = 4) (ht : t.length = 4)
    (hp : payload.length = fromBytesLE l) (hcode : fromBytesLE t = code)
    (hmsg : messageFromCode code = none) (hev : eventFromCode code = none) :
    recvSwayMsg (m ++ l ++ t ++ payload ++ rest) =
      (.error (.unexpectedPayloadType code), rest) ∧
    (m ++ l ++ t ++ payload).length = HEADER_LEN + fromBytesLE l := by
  constructor
  · rw [recvSwayMsg_decomp m l t payload rest hm hl ht hp, hcode]
    rw [show classifyCode code = none from by
      rw [classifyCode, hmsg, hev]; rfl]
  · simp only [List.length_append, hm, hl, ht, hp]
    rw [show HEADER_LEN = 14 from rfl]

theorem recv_unknown_code_resync_witness :
    recvSwayMsg (MAGIC_STR ++ [2, 0, 0, 0] ++ [50, 0, 0, 0] ++ [48, 49] ++
      [9, 9]) = (.error (.unexpectedPayloadType 50), [9, 9]) ∧
    (MAGIC_STR ++ [2, 0, 0, 0] ++ [50, 0, 0, 0] ++ [48, 49]).length =
      HEADER_LEN + fromBytesLE [2, 0, 0, 0] :=
  recv_unknown_code_resync MAGIC_STR [2, 0, 0, 0] [50, 0, 0, 0] [48, 49]
    [9, 9] 50 rfl rfl rfl (by decide) (by decide) rfl rfl

/-! ## The dispatch worker: FIFO service and the in-flight discipline -/

theorem inflightOk_dispatchActions (q : List Request) :
    ∀ s : List Nat, inflightOk 0 (dispatchActions q s) = true := by
  induction q with
  | nil => intro s; rfl
  | cons r q ih =>
      intro s
      rw [dispatchActions]
      cases hsend : sendSwayMsg r.msg.value r.payload with
      | none => rfl
      | some fr =>
          rcases hr : recvSwayMsg s with ⟨res, rest⟩
          cases res with
          | error e => simp [inflightOk]
          | ok kv =>
              rcases kv with ⟨k, v⟩
              cases k with
              | msg m => simp [inflightOk, ih rest]
              | ev e => simp [inflightOk, ih rest]

theorem dispatchRun_fifo (q : List Request) :
    ∀ rs : List (SwayMessage × JsonValue),
      (∀ r ∈ q, (sendSwayMsg r.msg.value r.payload).isSome = true) →
      (∀ mv ∈ rs, wfJ mv.2 = true ∧ (dumps mv.2).length < 2 ^ 32) →
      q.length ≤ rs.length →
      dispatchRun q (encodeResponses rs) =
        ((q.zip rs).map (fun p => (p.1.handler, p.2.1, p.2.2)),
          LoopEnd.stopped) := by
  induction q with
  | nil => intro rs _ _ _; rfl
  | cons r q ih =>
      intro rs hq hrs hlen
      cases rs with
      | nil => simp at hlen
      | cons mv rs2 =>
          have hsend := hq r (by simp)
          rw [Option.isSome_iff_exists] at hsend
          obtain ⟨fr, hfr⟩ := hsend
          have hwv := hrs mv (by simp)
          have hrecv : recvSwayMsg (encodeResponses (mv :: rs2)) =
              (.ok (.msg mv.1, mv.2), encodeResponses rs2) := by
            rw [show encodeResponses (mv :: rs2) =
              frameBytes mv.1.value (dumps mv.2) ++ encodeResponses rs2
              from rfl]
            exact recv_frameBytes mv.1.value mv.2 (encodeResponses rs2)
              (.msg mv.1) mv.1.msgValue_lt (classifyCode_msg mv.1) hwv.1 hwv.2
          rw [dispatchRun, hfr, hrecv]
          dsimp only
          rw [ih rs2 (fun x hx => hq x (by simp [hx]))
              (fun x hx => hrs x (by simp [hx])) (by simp at hlen ⊢; omega)]
          simp

/-- Claim C3: commands submitted in order A, B, C have their response
handlers invoked in exactly that order — the FIFO queue is drained by a
single worker that sends one frame and blocks for its response before
touching the next request — and the action trace obeys the single
in-flight-request discipline (a request is only written when no response
is outstanding). -/
theorem dispatch_fifo_single_inflight (q : List Request)
    (rs : List (SwayMessage × JsonValue)) (stream2 : List Nat)
    (hq : ∀ r ∈ q, (sendSwayMsg r.msg.value r.payload).isSome = true)
    (hrs : ∀ mv ∈ rs, wfJ mv.2 = true ∧ (dumps mv.2).length < 2 ^ 32)
    (hlen : q.length ≤ rs.length) :
    dispatchRun q (encodeResponses rs) =
      ((q.zip rs).map (fun p => (p.1.handler, p.2.1, p.2.2)),
        LoopEnd.stopped) ∧
    inflightOk 0 (dispatchActions q stream2) = true :=
  ⟨dispatchRun_fifo q rs hq hrs hlen, inflightOk_dispatchActions q stream2⟩



theorem dispatch_fifo_single_inflight_witness :
    dispatchRun demoQueue (encodeResponses demoResponses) =
      ((demoQueue.zip demoResponses).map
        (fun p => (p.1.handler, p.2.1, p.2.2)), LoopEnd.stopped) ∧
    inflightOk 0 (dispatchActions demoQueue []) = true :=
  dispatch_fifo_single_inflight demoQueue demoResponses []
    (by decide)
    (by simp [demoResponses, wfJ_null, wfJ_bool, wfJ_arr, wfL_nil,
      dumps_null, dumps_true, dumps_arr_nil])
    (by decide)

/-! ## Claim C6: what actually happens to unclassifiable frames -/

/-- Claim C6 counterexample: one frame with the unknown type code 50 does
not get "dropped and logged" — `recv_sway_msg` raises, the exception is
uncaught in `message_dispatch_worker`, and the worker thread dies without
processing anything further. -/
theorem unknown_frame_crashes_dispatch_worker :
    dispatchRun [⟨.GET_WORKSPACES, [], 5⟩]
      (MAGIC_STR ++ [1, 0, 0, 0] ++ [50, 0, 0, 0] ++ [48]) =
      ([], .errored (.unexpectedPayloadType 50)) := rfl

/-- Claim C6 (amended): a received frame whose type code classifies into
the *other* namespace (an event code on the command connection) is
silently skipped — no handler call, no log — and the worker continues
with the next request; but a frame whose type code matches neither
namespace makes `recv_sway_msg` raise `RuntimeError`, which is not caught
by either worker loop: the dispatch worker dies, and the event read loop
dies the same way. -/
theorem frame_classification_drop_or_crash
    (r : Request) (q : List Request) (fr : List Nat)
    (hsend : sendSwayMsg r.msg.value r.payload = some fr)
    (e : SwayEvent) (v : JsonValue) (tail : List Nat)
    (hwf : wfJ v = true) (hlen : (dumps v).length < 2 ^ 32)
    (m l t payload : List Nat) (code : Nat)
    (hm : m.length = 6) (hl : l.length = 4) (ht : t.length = 4)
    (hp : payload.length = fromBytesLE l) (hcode : fromBytesLE t = code)
    (hmsg : messageFromCode code = none) (hev : eventFromCode code = none)
    (stopSet : Bool) (outs : List RecvOutcome) :
    dispatchRun (r :: q) (frameBytes e.value (dumps v) ++ tail) =
      dispatchRun q tail ∧
    dispatchRun (r :: q) (m ++ l ++ t ++ payload ++ tail) =
      ([], .errored (.unexpectedPayloadType code)) ∧
    eventLoop stopSet
        (.frame (.error (.unexpectedPayloadType code)) :: outs) =
      ([], .errored (.unexpectedPayloadType code)) := by
  have hclass : classifyCode code = none := by
    rw [classifyCode, hmsg, hev]
    rfl
  refine ⟨?_, ?_, ?_⟩
  · have hrecv := recv_frameBytes e.value v tail (.ev e) e.evValue_lt
      (classifyCode_ev e) hwf hlen
    rw [dispatchRun, hsend, hrecv]
  · have hrecv2 : recvSwayMsg (m ++ l ++ t ++ payload ++ tail) =
        (.error (.unexpectedPayloadType code), tail) := by
      rw [recvSwayMsg_decomp m l t payload tail hm hl ht hp, hcode, hclass]
    rw [dispatchRun, hsend, hrecv2]
  · rfl

theorem frame_classification_drop_or_crash_witness :
    dispatchRun [⟨.GET_WORKSPACES, [], 5⟩, ⟨.GET_MARKS, [], 6⟩]
      (frameBytes SwayEvent.WORKSPACE.value (dumps .null) ++ [7]) =
      dispatchRun [⟨.GET_MARKS, [], 6⟩] [7] ∧
    dispatchRun [⟨.GET_WORKSPACES, [], 5⟩, ⟨.GET_MARKS, [], 6⟩]
      (MAGIC_STR ++ [1, 0, 0, 0] ++ [50, 0, 0, 0] ++ [48] ++ [7]) =
      ([], .errored (.unexpectedPayloadType 50)) ∧
    eventLoop false
        (.frame (.error (.unexpectedPayloadType 50)) :: []) =
      ([], .errored (.unexpectedPayloadType 50)) :=
  frame_classification_drop_or_crash ⟨.GET_WORKSPACES, [], 5⟩
    [⟨.GET_MARKS, [], 6⟩] _ rfl .WORKSPACE .null [7] wfJ_null
    (by simp [dumps_null]) MAGIC_STR [1, 0, 0, 0] [50, 0, 0, 0] [48] 50
    rfl rfl rfl rfl rfl rfl rfl false []

/-! ## Claim C5: where the subscription failure actually surfaces -/

/-- Claim C5 counterexample: with the compositor's SUBSCRIBE response
being `{"success":false}`, the `subscribe` method itself raises nothing —
it starts the worker thread and returns — while the
`RuntimeError("Failed to subscribe to Sway events.")` occurs inside the
spawned `event_worker`. -/
theorem subscribe_failure_not_synchronous :
    exceptOk (clientSubscribe initClient [.WORKSPACE] 7) = true ∧
    (eventWorkerRun [.WORKSPACE] failRespBytes [] false).outcome =
      .error .subscribeFailed := by
  constructor
  · rfl
  · have hdumps : dumps (subscribePayloadJson [.WORKSPACE]) =
        [91, 34, 119, 111, 114, 107, 115, 112, 97, 99, 101, 34, 93] := by
      simp [subscribePayloadJson, SwayEvent.strName, dumps_arr_cons,
        dumpsList_single, dumps_str, encodeString, escapeChar]
    rw [eventWorkerRun, hdumps]
    rfl

/-- Claim C5 (amended): when the SUBSCRIBE response payload's `success`
entry is absent or `false`, the failure is a `RuntimeError` raised
asynchronously inside the event worker thread — which dies before its
read loop starts — while `subscribe` itself returns to the caller without
raising (its body only assigns attributes and starts the thread). -/
theorem subscribe_failure_async_in_worker (events : List SwayEvent)
    (stream : List Nat) (outs : List RecvOutcome) (stopSet : Bool)
    (k : SwayKind) (pl : JsonValue) (r2 : List Nat) (s : ClientState)
    (evs2 : List SwayEvent) (h2 : Nat)
    (hlen : (dumps (subscribePayloadJson events)).length < 2 ^ 32)
    (hrecv : recvSwayMsg stream = (.ok (k, pl), r2))
    (hfail : pyDictGet pl successKey = .ok none ∨
      pyDictGet pl successKey = .ok (some (.bool false))) :
    (eventWorkerRun events stream outs stopSet).outcome =
      .error .subscribeFailed ∧
    exceptOk (clientSubscribe s evs2 h2) = true := by
  constructor
  · have hascii := dumps_ascii (subscribePayloadJson events)
    have hsend : sendSwayMsg SwayMessage.SUBSCRIBE.value
        (dumps (subscribePayloadJson events)) =
        some (frameBytes SwayMessage.SUBSCRIBE.value
          (dumps (subscribePayloadJson events))) := by
      rw [sendSwayMsg, if_pos]
      refine ⟨hlen, by decide, ?_⟩
      rw [List.all_eq_true]
      intro c hc
      have := hascii c hc
      simp [isScalarCP]
      omega
    rw [eventWorkerRun, hsend, hrecv]
    dsimp only
    rcases hfail with hfail | hfail <;>
      rw [hfail] <;> rfl
  · rfl

theorem subscribe_failure_async_in_worker_witness :
    (eventWorkerRun [.WORKSPACE] failRespBytes [] false).outcome =
      .error .subscribeFailed ∧
    exceptOk (clientSubscribe initClient [.WINDOW] 9) = true :=
  subscribe_failure_async_in_worker [.WORKSPACE] failRespBytes [] false
    (.msg .SUBSCRIBE)
    (.obj [([115, 117, 99, 99, 101, 115, 115], .bool false)]) []
    initClient [.WINDOW] 9
    (by simp [subscribePayloadJson, SwayEvent.strName, dumps_arr_cons,
      dumpsList_single, dumps_str, encodeString, escapeChar])
    rfl (Or.inr rfl)

/-! ## Claim C8: cancellation is only observed on a read timeout -/

/-- Claim C8 counterexample: with the stop event already set, a run of
five arriving frames is processed in full — five handler invocations and
a loop still running — because the flag is consulted only in the
`socket.timeout` branch.  Five consecutive blocking reads can span well
over twice the 1-second read timeout, so termination within `2×` the
timeout is not guaranteed under event traffic. -/
theorem event_loop_runs_despite_stop_under_traffic :
    eventLoop true
        (List.replicate 5 (.frame (.ok (.ev .WORKSPACE, .null)))) =
      (List.replicate 5 ((.WORKSPACE : SwayEvent), JsonValue.null),
        .stillRunning) := rfl

/-- Claim C8 (amended): once the stop event is set, the read loop returns
at the *first read that times out*: frames that keep arriving are all
delivered first, and only a timeout (at most one read-timeout period with
no traffic) lets the loop observe the flag and exit. -/
theorem event_loop_exits_at_first_timeout (pre post : List RecvOutcome)
    (hpre : pre.all isOkFrame = true) :
    eventLoop true (pre ++ .timeout :: post) = (eventsOf pre, .stopped) := by
  induction pre with
  | nil => rfl
  | cons o pre ih =>
      simp only [List.all_cons, Bool.and_eq_true] at hpre
      cases o with
      | timeout => simp [isOkFrame] at hpre
      | frame res =>
          cases res with
          | error e => simp [isOkFrame] at hpre
          | ok kv =>
              rcases kv with ⟨k, v⟩
              cases k with
              | msg m =>
                  rw [List.cons_append, eventLoop, ih hpre.2]
                  simp [eventsOf]
              | ev e =>
                  rw [List.cons_append, eventLoop, ih hpre.2]
                  simp [eventsOf]

theorem event_loop_exits_at_first_timeout_witness :
    eventLoop true ([.frame (.ok (.ev .WORKSPACE, .null))] ++
        .timeout :: []) =
      (eventsOf [.frame (.ok (.ev .WORKSPACE, .null))], .stopped) :=
  event_loop_exits_at_first_timeout
    [.frame (.ok (.ev .WORKSPACE, .null))] [] rfl

/-! ## Claim C4: nothing fails after shutdown -/

/-- Claim C4 counterexample: on a client that subscribed and was then shut
down, a subsequent `send` raises nothing and silently enqueues the
message, and a subsequent `subscribe` raises nothing and starts a new
event listener; no `ClientClosedError` exists in the code. -/
theorem send_after_shutdown_no_error :
    ((clientSubscribe initClient [.WORKSPACE] 7).bind (fun s1 =>
      (clientShutdown s1).bind (fun s2 =>
        (clientSend s2 ⟨.GET_VERSION, [], 9⟩).map
          (fun s3 => s3.messageQueue)))) =
      .ok [⟨.GET_VERSION, [], 9⟩] ∧
    exceptOk ((clientSubscribe initClient [.WORKSPACE] 7).bind (fun s1 =>
      (clientShutdown s1).bind (fun s2 =>
        clientSubscribe s2 [.WINDOW] 8))) = true := ⟨rfl, rfl⟩

/-- Claim C4 (amended): `send` and `subscribe` never raise, on any client
state whatsoever — after `shutdown()` included.  `send` silently enqueues
the message tuple (the stopped consumer will never drain it), and
`subscribe` silently installs a fresh stop event and starts a new
`event_worker` thread; the code defines no `ClientClosedError` and
performs no closed-state check. -/
theorem send_subscribe_never_raise (s : ClientState) (r : Request)
    (evs : List SwayEvent) (h : Nat) :
    clientSend s r = .ok { s with messageQueue := s.messageQueue ++ [r] } ∧
    clientSubscribe s evs h = .ok { s with
      flags := s.flags ++ [false]
      eventStop := some (some s.flags.length)
      eventThreadSet := some true
      eventWorkers := s.eventWorkers ++ [s.flags.length] } := ⟨rfl, rfl⟩

/-! ## Claim C7: the socket locator cannot fail -/

/-- Claim C7 counterexample: with `SWAYSOCK` unset and the discovery
command printing nothing (or only whitespace), `get_sway_socket_path`
returns the empty string instead of raising: the `if path is None` check
after `strip()` is dead code. -/
theorem socket_path_empty_no_error :
    get_sway_socket_path none [] = .ok [] ∧
    get_sway_socket_path none [32, 10] = .ok [] ∧
    get_sway_socket_path (some []) [115] = .ok [] := ⟨rfl, rfl, rfl⟩

/-- Claim C7 (amended): the locator returns the `SWAYSOCK` value whenever
the variable is set (even set to the empty string), and otherwise the
stripped stdout of `sway --get-socketpath` (even when that is empty); the
`RuntimeError` branch is unreachable because `strip()` always returns a
string, so the function never raises and can return an empty path. -/
theorem socket_path_never_raises (env : Option (List Nat))
    (out : List Nat) :
    get_sway_socket_path env out =
      .ok (match env with
        | some p => p
        | none => pyStrip out) := by
  cases env <;> rfl

/-! ## Claim C9: re-subscribing does not stop the old reader -/

/-- Claim C9 counterexample: after two `subscribe` calls, both spawned
event workers are running — the second subscribe overwrote `_event_stop`
without setting the first worker's stop event, so two readers race. -/
theorem two_subscriptions_both_running :
    ((clientSubscribe initClient [.WORKSPACE] 1).bind (fun s1 =>
      (clientSubscribe s1 [.WINDOW] 2).map
        (fun s2 => (runningEventWorkers s2).length))) = .ok 2 := rfl

theorem getD_append_length (l : List Bool) (x : Bool) :
    (l ++ [x]).getD l.length true = x := by
  induction l with
  | nil => rfl
  | cons a t ih => simp

theorem getD_append_lt (l : List Bool) (x : Bool) (i : Nat)
    (h : i < l.length) : (l ++ [x]).getD i true = l.getD i true := by
  induction l generalizing i with
  | nil => simp at h
  | cons a t ih =>
      cases i with
      | zero => rfl
      | succ j =>
          simp only [List.length_cons] at h
          simpa using ih j (by omega)

/-- Claim C9 (amended): `subscribe` leaves every existing stop flag unset
and registers one more unstopped worker; it never stops the prior read
loop, so after a re-subscribe the old and the new reader are both
running. -/
theorem subscribe_leaves_old_worker_running (s s2 : ClientState)
    (evs : List SwayEvent) (h : Nat)
    (hsub : clientSubscribe s evs h = .ok s2)
    (hinv : ∀ i ∈ s.eventWorkers, i < s.flags.length) :
    s2.flags = s.flags ++ [false] ∧
    runningEventWorkers s2 = runningEventWorkers s ++ [s.flags.length] := by
  rw [clientSubscribe] at hsub
  injection hsub with hsub
  subst hsub
  refine ⟨rfl, ?_⟩
  rw [runningEventWorkers, runningEventWorkers]
  simp only [List.filter_append]
  congr 1
  · apply List.filter_congr
    intro i hi
    rw [getD_append_lt s.flags false i (hinv i hi)]
  · simp [getD_append_length]

theorem subscribe_leaves_old_worker_running_witness :
    ({ initClient with
        flags := initClient.flags ++ [false]
        eventStop := some (some initClient.flags.length)
        eventThreadSet := some true
        eventWorkers :=
          initClient.eventWorkers ++ [initClient.flags.length] } :
      ClientState).flags = initClient.flags ++ [false] ∧
    runningEventWorkers { initClient with
        flags := initClient.flags ++ [false]
        eventStop := some (some initClient.flags.length)
        eventThreadSet := some true
        eventWorkers :=
          initClient.eventWorkers ++ [initClient.flags.length] } =
      runningEventWorkers initClient ++ [initClient.flags.length] :=
  subscribe_leaves_old_worker_running initClient _ [.WORKSPACE] 1 rfl
    (by simp [initClient])

/-! ## Claim C10: unsubscribe and shutdown on a fresh client -/

/-- Claim C10: on a freshly constructed client on which `subscribe` has
never been called, `unsubscribe()` raises `AttributeError` — the
`_event_stop` and `_event_thread` attributes are class-level annotations
with no assignment until `subscribe` runs — and therefore `shutdown()`,
which unconditionally calls `unsubscribe`, raises `AttributeError` too
(after having already stopped the consumer). -/
theorem fresh_unsubscribe_shutdown_attribute_error :
    clientUnsubscribe initClient = .error .attributeError ∧
    clientShutdown initClient = .error .attributeError := ⟨rfl, rfl⟩
end Cinnabar
